import Mathlib

/-!
Verification development for the gate-trading-bot repository.

This file gives a shallow embedding of the repository's trade-execution
pipeline and proves/refutes the specification claims against it.
JavaScript numbers are modelled as exact rationals (`ℚ`); `Math.floor`,
`Math.round`, `Math.abs`, `Math.max` are modelled by their exact
counterparts.  The repository contains two near-duplicate drafts of the
risk service and of the exchange client; both drafts are embedded (suffix
`A` for the fractional-contract draft at the top of each file, suffix `B`
for the integer-contract draft after the draft separator).
-/

/-! ## JavaScript number primitives -/

/-- `Math.round` in JavaScript: round half toward positive infinity. -/
def jsRound (x : ℚ) : ℚ := (⌊x + 1/2⌋ : ℤ)

/-- `Math.floor` on a rational, returned as a rational. -/
def jsFloor (x : ℚ) : ℚ := (⌊x⌋ : ℤ)

/-- Modelled from the spec: `isValidNumber` lives in the repository's
`src/utils/helpers.js`, which is not part of the provided sources.  The
spec describes it as the guard that inputs are genuine finite numbers; in
the rational-number embedding every value is a finite number, so the
check is identically true. -/
def isValidNumber (_ : ℚ) : Bool := true

/-- Round half away from zero.  Modelled from the spec: the helper
`roundPrice` of `src/utils/helpers.js` is not part of the provided
sources; the spec prescribes rounding prices to the symbol's price
precision using round-half-away-from-zero. -/
def roundHalfAwayFromZero (x : ℚ) : ℚ :=
  if x < 0 then -((⌊(-x) + 1/2⌋ : ℤ) : ℚ) else ((⌊x + 1/2⌋ : ℤ) : ℚ)

/-- Modelled from the spec: `roundPrice` of the missing
`src/utils/helpers.js` rounds a price to `precision` decimal digits using
round-half-away-from-zero. -/
def roundPrice (x : ℚ) (precision : ℕ) : ℚ :=
  roundHalfAwayFromZero (x * 10 ^ precision) / 10 ^ precision

/-- JavaScript `v || d` for an optional numeric field: `undefined`, `0`
(and `NaN`, which does not arise in the rational model) are falsy and
give the default. -/
def jsOrQ (v : Option ℚ) (d : ℚ) : ℚ :=
  match v with
  | none => d
  | some x => if x = 0 then d else x

/-! ## Data model of the Position Sizer -/

/-- Risk configuration (`config.risk` in `src/config/settings.js`). -/
structure RiskConfig where
  percentage : ℚ
  leverage : ℚ
  takeProfitPercent : ℚ
  stopLossPercent : ℚ
  deriving DecidableEq, Repr

/-- Symbol metadata as consumed by the Position Sizer.  `maxQty = none`
models an absent field (the JS code falls back to `Infinity`);
`pricePrecision = none` models an `undefined` field (fallback `4`). -/
structure SymbolInfo where
  minQty : Option ℚ
  maxQty : Option ℚ
  pricePrecision : Option ℕ
  deriving DecidableEq, Repr

/-- Output record of `calculatePositionParameters` (both drafts). -/
structure PositionResult where
  entryPrice : ℚ
  quantity : ℚ
  positionSize : ℚ
  leverage : ℚ
  requiredMargin : ℚ
  stopLoss : ℚ
  takeProfit : ℚ
  riskAmount : ℚ
  direction : String
  deriving DecidableEq, Repr

/-- Effective price precision: `symbolInfo.pricePrecision !== undefined ?
symbolInfo.pricePrecision : 4`. -/
def ppEff (si : SymbolInfo) : ℕ := si.pricePrecision.getD 4

/-- `balance * 0.99`, the 99% safety buffer of both sizer drafts. -/
def usableBalance (b : ℚ) : ℚ := b * (99/100)

/-- Raw stop-loss price of both sizer drafts:
`entryPrice * (1 ∓ stopLossPercent/100)`, minus for LONG, plus for SHORT. -/
def stopLossPriceRaw (cfg : RiskConfig) (e : ℚ) (d : String) : ℚ :=
  if d = "LONG" then e * (1 - cfg.stopLossPercent / 100)
  else e * (1 + cfg.stopLossPercent / 100)

/-- Raw take-profit price of both sizer drafts:
`entryPrice * (1 ± takeProfitPercent/100)`, plus for LONG, minus for SHORT. -/
def takeProfitPriceRaw (cfg : RiskConfig) (e : ℚ) (d : String) : ℚ :=
  if d = "LONG" then e * (1 + cfg.takeProfitPercent / 100)
  else e * (1 - cfg.takeProfitPercent / 100)

/-! ## Position Sizer, fractional draft (`risk.service.js`, first draft) -/

/-- Step 4/5 of the fractional draft: `size = notional / entryPrice`
rounded to six decimal places with `Math.round`. -/
def sizeRoundedA (cfg : RiskConfig) (b e : ℚ) : ℚ :=
  jsRound ((usableBalance b * (cfg.percentage / 100) * cfg.leverage / e) * 1000000) / 1000000

/-- Step 6 of the fractional draft: cap at `symbolInfo.maxQty || Infinity`. -/
def clampMaxQ (si : SymbolInfo) (q : ℚ) : ℚ :=
  match si.maxQty with
  | none => q
  | some m => if m = 0 then q else if q > m then m else q

/-- Quantity of the fractional draft after the maximum cap. -/
def sizeClampedA (cfg : RiskConfig) (b e : ℚ) (si : SymbolInfo) : ℚ :=
  clampMaxQ si (sizeRoundedA cfg b e)

/-- Builds the successful result record of the fractional draft. -/
def mkResultA (cfg : RiskConfig) (b e : ℚ) (d : String) (si : SymbolInfo) :
    PositionResult :=
  { entryPrice := roundPrice e (ppEff si)
    quantity := sizeClampedA cfg b e si
    positionSize := sizeClampedA cfg b e si * e
    leverage := cfg.leverage
    requiredMargin := sizeClampedA cfg b e si * e / cfg.leverage
    stopLoss := roundPrice (stopLossPriceRaw cfg e d) (ppEff si)
    takeProfit := roundPrice (takeProfitPriceRaw cfg e d) (ppEff si)
    riskAmount := usableBalance b * (cfg.percentage / 100)
    direction := d }

/-- `calculatePositionParameters` — fractional-contract draft
(`src/services/risk.service.js`, lines 17–129).  Fractional contract
sizes are allowed; the size is rounded to six decimals, capped at the
symbol maximum, and the recomputed margin must not exceed 99% of the
balance. -/
def calculatePositionParametersA (cfg : RiskConfig) (balance entryPrice : ℚ)
    (direction : String) (si : SymbolInfo) : Except String PositionResult :=
  if isValidNumber balance = false ∨ balance ≤ 0 then
    .error "Invalid balance"
  else if isValidNumber entryPrice = false ∨ entryPrice ≤ 0 then
    .error "Invalid entry price"
  else if direction ≠ "LONG" ∧ direction ≠ "SHORT" then
    .error "Invalid direction"
  else if sizeClampedA cfg balance entryPrice si * entryPrice / cfg.leverage >
      usableBalance balance then
    .error "Insufficient balance"
  else
    .ok (mkResultA cfg balance entryPrice direction si)

/-! ## Position Sizer, integer draft (`risk.service.js`, second draft) -/

/-- Risk amount of the integer draft: `usableBalance * (percentage/100)`. -/
def riskAmountB (cfg : RiskConfig) (b : ℚ) : ℚ :=
  usableBalance b * (cfg.percentage / 100)

/-- Distance between the entry price and the raw stop-loss price. -/
def stopLossDistance (cfg : RiskConfig) (e : ℚ) (d : String) : ℚ :=
  |e - stopLossPriceRaw cfg e d|

/-- Step 4 of the integer draft: `positionSize = (riskAmount /
stopLossDistance) * entryPrice`. -/
def positionSizeInitialB (cfg : RiskConfig) (b e : ℚ) (d : String) : ℚ :=
  (riskAmountB cfg b / stopLossDistance cfg e d) * e

/-- Step 5 of the integer draft: if `positionSize / leverage` exceeds the
usable balance, recompute with the maximal available balance
(`positionSize = usableBalance * leverage`). -/
def positionSizeB (cfg : RiskConfig) (b e : ℚ) (d : String) : ℚ :=
  if positionSizeInitialB cfg b e d / cfg.leverage > usableBalance b then
    usableBalance b * cfg.leverage
  else
    positionSizeInitialB cfg b e d

/-- Step 6 of the integer draft, before clamping: `Math.floor(positionSize
/ entryPrice)`. -/
def quantityFloorB (cfg : RiskConfig) (b e : ℚ) (d : String) : ℚ :=
  jsFloor (positionSizeB cfg b e d / e)

/-- Effective minimum quantity of the integer draft:
`Math.max(symbolInfo.minQty || 1, 1)`. -/
def minQtyEff (si : SymbolInfo) : ℚ := max (jsOrQ si.minQty 1) 1

/-- Quantity of the integer draft after clamping: first raised to
`minQty` when below, then capped at `maxQty || Infinity`. -/
def quantityClampedB (cfg : RiskConfig) (b e : ℚ) (d : String) (si : SymbolInfo) : ℚ :=
  clampMaxQ si
    (if quantityFloorB cfg b e d < minQtyEff si then minQtyEff si
     else quantityFloorB cfg b e d)

/-- Required margin for a quantity: `quantity * entryPrice / leverage`. -/
def marginOfQty (cfg : RiskConfig) (e q : ℚ) : ℚ := q * e / cfg.leverage

/-- The integer draft's auto-correction loop: while the margin exceeds
the usable balance and the quantity is above the minimum, decrement the
quantity by one contract.  The loop is embedded with explicit fuel; the
fuel chosen below suffices for the loop to run to completion. -/
def reduceQtyLoop (cfg : RiskConfig) (e usable mq : ℚ) : ℕ → ℚ → ℚ
  | 0, q => q
  | n + 1, q =>
    if marginOfQty cfg e q > usable ∧ q > mq then
      reduceQtyLoop cfg e usable mq n (q - 1)
    else q

/-- Fuel sufficient to drive `reduceQtyLoop` until its guard fails. -/
def loopFuel (q mq : ℚ) : ℕ := (⌈q - mq⌉).toNat

/-- Quantity of the integer draft after the auto-correction loop. -/
def quantityAfterLoopB (cfg : RiskConfig) (b e : ℚ) (d : String) (si : SymbolInfo) : ℚ :=
  reduceQtyLoop cfg e (usableBalance b) (minQtyEff si)
    (loopFuel (quantityClampedB cfg b e d si) (minQtyEff si))
    (quantityClampedB cfg b e d si)

/-- Builds the successful result record of the integer draft for a final
quantity `q`. -/
def mkResultB (cfg : RiskConfig) (b e : ℚ) (d : String) (si : SymbolInfo) (q : ℚ) :
    PositionResult :=
  { entryPrice := roundPrice e (ppEff si)
    quantity := q
    positionSize := q * e
    leverage := cfg.leverage
    requiredMargin := marginOfQty cfg e q
    stopLoss := roundPrice (stopLossPriceRaw cfg e d) (ppEff si)
    takeProfit := roundPrice (takeProfitPriceRaw cfg e d) (ppEff si)
    riskAmount := riskAmountB cfg b
    direction := d }

/-- `calculatePositionParameters` — integer-contract draft
(`src/services/risk.service.js`, lines 154–295).  The quantity is
floored to an integer, clamped to `[minQty, maxQty]`, auto-corrected
downward while the margin exceeds the usable balance, and a
micro-difference of at most 0.1 USDT above the usable balance is
accepted. -/
def calculatePositionParametersB (cfg : RiskConfig) (balance entryPrice : ℚ)
    (direction : String) (si : SymbolInfo) : Except String PositionResult :=
  if isValidNumber balance = false ∨ balance ≤ 0 then
    .error "Invalid balance"
  else if isValidNumber entryPrice = false ∨ entryPrice ≤ 0 then
    .error "Invalid entry price"
  else if direction ≠ "LONG" ∧ direction ≠ "SHORT" then
    .error "Invalid direction"
  else if stopLossDistance cfg entryPrice direction ≤ 0 then
    .error "Stop loss distance is zero or negative"
  else if marginOfQty cfg entryPrice (quantityAfterLoopB cfg balance entryPrice direction si) -
      usableBalance balance > 1/10 then
    if quantityAfterLoopB cfg balance entryPrice direction si ≤ minQtyEff si then
      .error "Insufficient balance even with minimum size"
    else
      .ok (mkResultB cfg balance entryPrice direction si
        (quantityAfterLoopB cfg balance entryPrice direction si))
  else if 0 < marginOfQty cfg entryPrice (quantityAfterLoopB cfg balance entryPrice direction si) -
      usableBalance balance ∧
      marginOfQty cfg entryPrice (quantityAfterLoopB cfg balance entryPrice direction si) -
      usableBalance balance ≤ 1/10 then
    if quantityAfterLoopB cfg balance entryPrice direction si > minQtyEff si then
      .ok (mkResultB cfg balance entryPrice direction si
        (quantityAfterLoopB cfg balance entryPrice direction si - 1))
    else
      .ok (mkResultB cfg balance entryPrice direction si
        (quantityAfterLoopB cfg balance entryPrice direction si))
  else
    .ok (mkResultB cfg balance entryPrice direction si
      (quantityAfterLoopB cfg balance entryPrice direction si))

/-! ## Metatheory of the integer draft's auto-correction loop -/

/-- With fuel at least `q - mq`, the auto-correction loop runs until its
guard fails: afterwards the margin fits the usable balance or the
quantity is at most the minimum. -/
theorem reduceQtyLoop_post (cfg : RiskConfig) (e usable mq : ℚ) :
    ∀ (n : ℕ) (q : ℚ), q - mq ≤ (n : ℚ) →
      marginOfQty cfg e (reduceQtyLoop cfg e usable mq n q) ≤ usable ∨
        reduceQtyLoop cfg e usable mq n q ≤ mq := by
  intro n
  induction n with
  | zero =>
    intro q hq
    right
    simp only [reduceQtyLoop]
    push_cast at hq
    linarith
  | succ n ih =>
    intro q hq
    rw [reduceQtyLoop]
    split
    · exact ih (q - 1) (by push_cast at hq ⊢; linarith)
    · rename_i hcond
      rcases not_and_or.mp hcond with h | h
      · exact Or.inl (le_of_not_lt h)
      · exact Or.inr (le_of_not_lt h)

/-- The chosen fuel `loopFuel q mq` dominates `q - mq`. -/
theorem loopFuel_adequate (q mq : ℚ) : q - mq ≤ (loopFuel q mq : ℚ) := by
  unfold loopFuel
  calc q - mq ≤ ((⌈q - mq⌉ : ℤ) : ℚ) := Int.le_ceil _
    _ ≤ (((⌈q - mq⌉).toNat : ℤ) : ℚ) := by exact_mod_cast Int.self_le_toNat _
    _ = ((⌈q - mq⌉).toNat : ℚ) := by push_cast; ring

/-- The quantity after the loop satisfies the loop's postcondition. -/
theorem quantityAfterLoopB_post (cfg : RiskConfig) (b e : ℚ) (d : String) (si : SymbolInfo) :
    marginOfQty cfg e (quantityAfterLoopB cfg b e d si) ≤ usableBalance b ∨
      quantityAfterLoopB cfg b e d si ≤ minQtyEff si :=
  reduceQtyLoop_post cfg e (usableBalance b) (minQtyEff si) _ _
    (loopFuel_adequate _ _)

/-- The loop is the identity when its guard already fails at entry. -/
theorem reduceQtyLoop_eq_self (cfg : RiskConfig) (e usable mq : ℚ) (n : ℕ) (q : ℚ)
    (h : ¬ (marginOfQty cfg e q > usable ∧ q > mq)) :
    reduceQtyLoop cfg e usable mq n q = q := by
  cases n with
  | zero => rfl
  | succ n => rw [reduceQtyLoop, if_neg h]

/-- The maximum cap never increases a quantity. -/
theorem clampMaxQ_le (si : SymbolInfo) (q : ℚ) : clampMaxQ si q ≤ q := by
  unfold clampMaxQ
  split
  · exact le_refl q
  · split
    · exact le_refl q
    · split
      · linarith [‹q > _›]
      · exact le_refl q

/-- The floored quantity never exceeds `positionSize / e / leverage`'s
margin budget: `positionSizeB / leverage ≤ usableBalance` by
construction of step 5 (for positive leverage). -/
theorem positionSizeB_div_leverage_le (cfg : RiskConfig) (b e : ℚ) (d : String)
    (hlev : 0 < cfg.leverage) :
    positionSizeB cfg b e d / cfg.leverage ≤ usableBalance b := by
  unfold positionSizeB
  split
  · rw [mul_div_assoc, div_self (ne_of_gt hlev), mul_one]
  · linarith [le_of_not_lt ‹¬ _›]

/-- At entry to the auto-correction loop of the integer draft the guard
already fails: the clamped quantity either fits the usable balance or
sits at (or below) the minimum quantity.  Consequently the loop is dead
code. -/
theorem quantityClampedB_guard_false (cfg : RiskConfig) (b e : ℚ) (d : String)
    (si : SymbolInfo) (he : 0 < e) (hlev : 0 < cfg.leverage) :
    ¬ (marginOfQty cfg e (quantityClampedB cfg b e d si) > usableBalance b ∧
        quantityClampedB cfg b e d si > minQtyEff si) := by
  rintro ⟨hm, hq⟩
  set f := quantityFloorB cfg b e d with hf
  by_cases hlt : f < minQtyEff si
  · -- raised to the minimum, then possibly capped: quantity ≤ minQty
    have h1 : quantityClampedB cfg b e d si ≤ minQtyEff si := by
      rw [quantityClampedB, if_pos hlt]
      exact clampMaxQ_le si _
    linarith
  · -- quantity ≤ f ≤ positionSize / e, so margin fits
    have h1 : quantityClampedB cfg b e d si ≤ f := by
      rw [quantityClampedB, if_neg hlt]
      exact clampMaxQ_le si _
    have h2 : f ≤ positionSizeB cfg b e d / e := by
      rw [hf, quantityFloorB, jsFloor]
      exact Int.floor_le _
    have h3 : marginOfQty cfg e (quantityClampedB cfg b e d si) ≤
        positionSizeB cfg b e d / cfg.leverage := by
      rw [marginOfQty]
      have hq_le : quantityClampedB cfg b e d si * e ≤ positionSizeB cfg b e d := by
        have := mul_le_mul_of_nonneg_right (h1.trans h2) (le_of_lt he)
        rwa [div_mul_cancel₀ _ (ne_of_gt he)] at this
      exact div_le_div_of_nonneg_right hq_le hlev.le
    have h4 := positionSizeB_div_leverage_le cfg b e d hlev
    linarith

/-- On the success path, the integer draft returns exactly the clamped
quantity (the auto-correction loop and the micro-difference decrement
never fire), with the margin recomputed from it. -/
theorem calculatePositionParametersB_ok_shape (cfg : RiskConfig) (b e : ℚ)
    (d : String) (si : SymbolInfo) (r : PositionResult)
    (hlev : 0 < cfg.leverage)
    (hok : calculatePositionParametersB cfg b e d si = .ok r) :
    r = mkResultB cfg b e d si (quantityClampedB cfg b e d si) := by
  unfold calculatePositionParametersB at hok
  split at hok
  · exact absurd hok (by simp)
  · split at hok
    · exact absurd hok (by simp)
    · rename_i hbal hent
      have he : 0 < e := by
        rcases not_or.mp hent with ⟨-, h2⟩
        exact lt_of_not_le h2
      have hguard := quantityClampedB_guard_false cfg b e d si he hlev
      have hloop : quantityAfterLoopB cfg b e d si = quantityClampedB cfg b e d si :=
        reduceQtyLoop_eq_self cfg e (usableBalance b) (minQtyEff si) _ _ hguard
      have hfit : ¬ (marginOfQty cfg e (quantityClampedB cfg b e d si) > usableBalance b ∧
          quantityClampedB cfg b e d si > minQtyEff si) := hguard
      split at hok
      · exact absurd hok (by simp)
      · split at hok
        · exact absurd hok (by simp)
        · rw [hloop] at hok
          split at hok
          · -- marginDifference > 0.1
            split at hok
            · exact absurd hok (by simp)
            · exact (Except.ok.inj hok).symm
          · split at hok
            · -- 0 < marginDifference ≤ 0.1: the quantity is at the minimum,
              -- so the safety decrement cannot fire
              rename_i hmicro
              split at hok
              · rename_i hgt
                exfalso
                exact hfit ⟨by linarith [hmicro.1], hgt⟩
              · exact (Except.ok.inj hok).symm
            · exact (Except.ok.inj hok).symm

/-! ## Projections and concrete fixtures used by closed theorems -/

/-- Is the sizer outcome a success? -/
def exceptIsOk (x : Except String PositionResult) : Bool :=
  match x with
  | .ok _ => true
  | .error _ => false

/-- Required margin of a successful outcome (0 on error). -/
def requiredMarginOf (x : Except String PositionResult) : ℚ :=
  match x with
  | .ok r => r.requiredMargin
  | .error _ => 0

/-- Quantity of a successful outcome (0 on error). -/
def quantityOf (x : Except String PositionResult) : ℚ :=
  match x with
  | .ok r => r.quantity
  | .error _ => 0

/-- The default risk configuration of `src/config/settings.js`:
riskPercentage 2.5, leverage 20, takeProfit 0.5%, stopLoss 0.3%. -/
def defaultRiskConfig : RiskConfig := ⟨5/2, 20, 1/2, 3/10⟩

/-- A standard symbol fixture: minQty 1, maxQty 1000000, price precision 4. -/
def siStd : SymbolInfo := ⟨some 1, some 1000000, some 4⟩

/-! ## Claim C1: margin bound -/

/-- The fractional draft aborts whenever the recomputed margin exceeds
the usable balance, so every success satisfies the strict 99% bound. -/
theorem calculatePositionParametersA_margin_le (cfg : RiskConfig) (b e : ℚ)
    (d : String) (si : SymbolInfo) (r : PositionResult)
    (hok : calculatePositionParametersA cfg b e d si = .ok r) :
    r.requiredMargin ≤ usableBalance b := by
  unfold calculatePositionParametersA at hok
  split at hok
  · exact absurd hok (by simp)
  · split at hok
    · exact absurd hok (by simp)
    · split at hok
      · exact absurd hok (by simp)
      · split at hok
        · exact absurd hok (by simp)
        · rename_i hguard
          cases Except.ok.inj hok
          exact le_of_not_lt hguard

/-- Claim C1 — corrected.  For the fractional draft every successful
output satisfies `requiredMargin ≤ balance * 0.99` exactly.  For the
integer draft the final check deliberately accepts a micro-difference of
up to 0.1 USDT, so successful outputs only satisfy
`requiredMargin ≤ balance * 0.99 + 0.1`; a sizing needing more than that
fails instead of returning a result. -/
theorem C1_margin_bound_amended :
    (∀ (cfg : RiskConfig) (b e : ℚ) (d : String) (si : SymbolInfo) (r : PositionResult),
      calculatePositionParametersA cfg b e d si = .ok r →
        r.requiredMargin ≤ usableBalance b) ∧
    (∀ (cfg : RiskConfig) (b e : ℚ) (d : String) (si : SymbolInfo) (r : PositionResult),
      calculatePositionParametersB cfg b e d si = .ok r →
        r.requiredMargin ≤ usableBalance b + 1/10) := by
  constructor
  · exact calculatePositionParametersA_margin_le
  · intro cfg b e d si r hok
    have hpost := quantityAfterLoopB_post cfg b e d si
    unfold calculatePositionParametersB at hok
    split at hok
    · exact absurd hok (by simp)
    · split at hok
      · exact absurd hok (by simp)
      · split at hok
        · exact absurd hok (by simp)
        · split at hok
          · exact absurd hok (by simp)
          · split at hok
            · -- marginDifference > 0.1
              rename_i hdiff
              split at hok
              · exact absurd hok (by simp)
              · rename_i hqgt
                exfalso
                rcases hpost with h | h
                · linarith
                · exact hqgt (by linarith)
            · split at hok
              · -- 0 < marginDifference ≤ 0.1
                rename_i hmicro
                split at hok
                · rename_i hqgt
                  exfalso
                  rcases hpost with h | h
                  · linarith [hmicro.1]
                  · linarith
                · cases Except.ok.inj hok
                  simp only [mkResultB]
                  linarith [hmicro.2]
              · rename_i hdiff hmicro
                cases Except.ok.inj hok
                simp only [mkResultB]
                push_neg at hdiff
                linarith

/-- Claim C1 — counterexample to the claim as stated.  With the default
configuration (risk 2.5%, leverage 20), balance 101 USDT, entry price
2000 and minQty 1, the integer draft succeeds although the recomputed
margin (1 contract · 2000 / 20 = 100 USDT) exceeds
`balance * 0.99 = 99.99` USDT: the 0.01 USDT overshoot is accepted as a
micro-difference instead of failing. -/
theorem C1_margin_bound_counterexample :
    calculatePositionParametersB defaultRiskConfig 101 2000 "LONG" siStd =
      .ok (mkResultB defaultRiskConfig 101 2000 "LONG" siStd 1) ∧
    requiredMarginOf (calculatePositionParametersB defaultRiskConfig 101 2000 "LONG" siStd) =
      100 ∧
    usableBalance 101 < 100 := by
  have hclamp : quantityClampedB defaultRiskConfig 101 2000 "LONG" siStd = 1 := by
    norm_num [quantityClampedB, quantityFloorB, positionSizeB, positionSizeInitialB,
      riskAmountB, usableBalance, stopLossDistance, stopLossPriceRaw, minQtyEff, jsOrQ,
      clampMaxQ, jsFloor, abs_of_nonneg, defaultRiskConfig, siStd]
  have hloop : quantityAfterLoopB defaultRiskConfig 101 2000 "LONG" siStd = 1 := by
    rw [quantityAfterLoopB, hclamp]
    apply reduceQtyLoop_eq_self
    rw [not_and_or]
    right
    norm_num [minQtyEff, jsOrQ, siStd]
  have hok : calculatePositionParametersB defaultRiskConfig 101 2000 "LONG" siStd =
      .ok (mkResultB defaultRiskConfig 101 2000 "LONG" siStd 1) := by
    rw [calculatePositionParametersB]
    rw [if_neg (by norm_num [isValidNumber]), if_neg (by norm_num [isValidNumber]),
      if_neg (by simp),
      if_neg (by norm_num [stopLossDistance, stopLossPriceRaw, defaultRiskConfig])]
    rw [hloop]
    rw [if_neg (by norm_num [marginOfQty, usableBalance, defaultRiskConfig]),
      if_pos (by norm_num [marginOfQty, usableBalance, defaultRiskConfig]),
      if_neg (by norm_num [minQtyEff, jsOrQ, siStd])]
  refine ⟨hok, ?_, by norm_num [usableBalance]⟩
  rw [hok]
  norm_num [requiredMarginOf, mkResultB, marginOfQty, defaultRiskConfig]

/-- Concrete fixture: the fractional draft succeeds on balance 1000,
entry price 100 with the default configuration. -/
theorem calcA_ok_1000_100 :
    calculatePositionParametersA defaultRiskConfig 1000 100 "LONG" siStd =
      .ok (mkResultA defaultRiskConfig 1000 100 "LONG" siStd) := by
  rw [calculatePositionParametersA]
  rw [if_neg (by norm_num [isValidNumber]), if_neg (by norm_num [isValidNumber]),
    if_neg (by simp),
    if_neg (by norm_num [sizeClampedA, sizeRoundedA, jsRound, usableBalance, clampMaxQ,
      defaultRiskConfig, siStd])]

/-- Concrete fixture: the fractional draft succeeds on balance 2000,
entry price 100 with the default configuration. -/
theorem calcA_ok_2000_100 :
    calculatePositionParametersA defaultRiskConfig 2000 100 "LONG" siStd =
      .ok (mkResultA defaultRiskConfig 2000 100 "LONG" siStd) := by
  rw [calculatePositionParametersA]
  rw [if_neg (by norm_num [isValidNumber]), if_neg (by norm_num [isValidNumber]),
    if_neg (by simp),
    if_neg (by norm_num [sizeClampedA, sizeRoundedA, jsRound, usableBalance, clampMaxQ,
      defaultRiskConfig, siStd])]

/-- Concrete fixture: the integer draft succeeds with quantity 82 on
balance 1000, entry price 100 with the default configuration. -/
theorem calcB_ok_1000_100 :
    calculatePositionParametersB defaultRiskConfig 1000 100 "LONG" siStd =
      .ok (mkResultB defaultRiskConfig 1000 100 "LONG" siStd 82) := by
  have hclamp : quantityClampedB defaultRiskConfig 1000 100 "LONG" siStd = 82 := by
    norm_num [quantityClampedB, quantityFloorB, positionSizeB, positionSizeInitialB,
      riskAmountB, usableBalance, stopLossDistance, stopLossPriceRaw, minQtyEff, jsOrQ,
      clampMaxQ, jsFloor, abs_of_nonneg, defaultRiskConfig, siStd]
  have hloop : quantityAfterLoopB defaultRiskConfig 1000 100 "LONG" siStd = 82 := by
    rw [quantityAfterLoopB, hclamp]
    apply reduceQtyLoop_eq_self
    rw [not_and_or]
    left
    norm_num [marginOfQty, usableBalance, defaultRiskConfig]
  rw [calculatePositionParametersB]
  rw [if_neg (by norm_num [isValidNumber]), if_neg (by norm_num [isValidNumber]),
    if_neg (by simp),
    if_neg (by norm_num [stopLossDistance, stopLossPriceRaw, defaultRiskConfig])]
  rw [hloop]
  rw [if_neg (by norm_num [marginOfQty, usableBalance, defaultRiskConfig]),
    if_neg (by norm_num [marginOfQty, usableBalance, defaultRiskConfig])]

/-- Concrete fixture: the integer draft succeeds with quantity 165 on
balance 2000, entry price 100 with the default configuration. -/
theorem calcB_ok_2000_100 :
    calculatePositionParametersB defaultRiskConfig 2000 100 "LONG" siStd =
      .ok (mkResultB defaultRiskConfig 2000 100 "LONG" siStd 165) := by
  have hclamp : quantityClampedB defaultRiskConfig 2000 100 "LONG" siStd = 165 := by
    norm_num [quantityClampedB, quantityFloorB, positionSizeB, positionSizeInitialB,
      riskAmountB, usableBalance, stopLossDistance, stopLossPriceRaw, minQtyEff, jsOrQ,
      clampMaxQ, jsFloor, abs_of_nonneg, defaultRiskConfig, siStd]
  have hloop : quantityAfterLoopB defaultRiskConfig 2000 100 "LONG" siStd = 165 := by
    rw [quantityAfterLoopB, hclamp]
    apply reduceQtyLoop_eq_self
    rw [not_and_or]
    left
    norm_num [marginOfQty, usableBalance, defaultRiskConfig]
  rw [calculatePositionParametersB]
  rw [if_neg (by norm_num [isValidNumber]), if_neg (by norm_num [isValidNumber]),
    if_neg (by simp),
    if_neg (by norm_num [stopLossDistance, stopLossPriceRaw, defaultRiskConfig])]
  rw [hloop]
  rw [if_neg (by norm_num [marginOfQty, usableBalance, defaultRiskConfig]),
    if_neg (by norm_num [marginOfQty, usableBalance, defaultRiskConfig])]

/-- Witness for `C1_margin_bound_amended` at concrete successful inputs
(balance 1000 USDT, entry price 100, default configuration). -/
theorem C1_margin_bound_amended_witness :
    requiredMarginOf (calculatePositionParametersA defaultRiskConfig 1000 100 "LONG" siStd) ≤
      usableBalance 1000 ∧
    requiredMarginOf (calculatePositionParametersB defaultRiskConfig 1000 100 "LONG" siStd) ≤
      usableBalance 1000 + 1/10 := by
  constructor
  · rw [calcA_ok_1000_100]
    exact C1_margin_bound_amended.1 _ _ _ _ _ _ calcA_ok_1000_100
  · rw [calcB_ok_1000_100]
    exact C1_margin_bound_amended.2 _ _ _ _ _ _ calcB_ok_1000_100

/-! ## Claim C2: minimum-quantity handling -/

/-- Claim C2 — counterexample to the claim as stated.  With the default
configuration, balance 10 USDT and entry price 100, the computed
quantity floors to 0, strictly below the symbol minimum of 1 — yet the
integer draft raises the quantity to the minimum and returns a
`PositionRequest` (quantity 1, margin 5 USDT) instead of failing with an
insufficient-balance error. -/
theorem C2_min_quantity_counterexample :
    quantityFloorB defaultRiskConfig 10 100 "LONG" = 0 ∧
    minQtyEff siStd = 1 ∧
    calculatePositionParametersB defaultRiskConfig 10 100 "LONG" siStd =
      .ok (mkResultB defaultRiskConfig 10 100 "LONG" siStd 1) := by
  have hfloor : quantityFloorB defaultRiskConfig 10 100 "LONG" = 0 := by
    norm_num [quantityFloorB, positionSizeB, positionSizeInitialB,
      riskAmountB, usableBalance, stopLossDistance, stopLossPriceRaw,
      jsFloor, abs_of_nonneg, defaultRiskConfig]
  have hclamp : quantityClampedB defaultRiskConfig 10 100 "LONG" siStd = 1 := by
    rw [quantityClampedB, hfloor]
    norm_num [minQtyEff, jsOrQ, clampMaxQ, siStd]
  have hloop : quantityAfterLoopB defaultRiskConfig 10 100 "LONG" siStd = 1 := by
    rw [quantityAfterLoopB, hclamp]
    apply reduceQtyLoop_eq_self
    rw [not_and_or]
    left
    norm_num [marginOfQty, usableBalance, defaultRiskConfig]
  refine ⟨hfloor, by norm_num [minQtyEff, jsOrQ, siStd], ?_⟩
  rw [calculatePositionParametersB]
  rw [if_neg (by norm_num [isValidNumber]), if_neg (by norm_num [isValidNumber]),
    if_neg (by simp),
    if_neg (by norm_num [stopLossDistance, stopLossPriceRaw, defaultRiskConfig])]
  rw [hloop]
  rw [if_neg (by norm_num [marginOfQty, usableBalance, defaultRiskConfig]),
    if_neg (by norm_num [marginOfQty, usableBalance, defaultRiskConfig])]

/-- Claim C2 — corrected.  The integer draft clamps the computed
quantity into `[minQty, maxQty]` by raising it to `minQty` when it falls
below, and then returns exactly that clamped quantity on every success;
it fails with the insufficient-balance error only when even the minimum
quantity's margin exceeds the usable balance by more than 0.1 USDT.  In
particular the spec's example (balance 50, entry price 100000, minQty 1,
leverage 20, risk 2.5%) does fail. -/
theorem C2_min_quantity_amended :
    (∀ (cfg : RiskConfig) (b e : ℚ) (d : String) (si : SymbolInfo) (r : PositionResult),
      0 < cfg.leverage →
      calculatePositionParametersB cfg b e d si = .ok r →
        r.quantity = quantityClampedB cfg b e d si) ∧
    calculatePositionParametersB defaultRiskConfig 50 100000 "LONG" siStd =
      .error "Insufficient balance even with minimum size" := by
  constructor
  · intro cfg b e d si r hlev hok
    rw [calculatePositionParametersB_ok_shape cfg b e d si r hlev hok]
    rfl
  · have hclamp : quantityClampedB defaultRiskConfig 50 100000 "LONG" siStd = 1 := by
      norm_num [quantityClampedB, quantityFloorB, positionSizeB, positionSizeInitialB,
        riskAmountB, usableBalance, stopLossDistance, stopLossPriceRaw, minQtyEff, jsOrQ,
        clampMaxQ, jsFloor, abs_of_nonneg, defaultRiskConfig, siStd]
    have hloop : quantityAfterLoopB defaultRiskConfig 50 100000 "LONG" siStd = 1 := by
      rw [quantityAfterLoopB, hclamp]
      apply reduceQtyLoop_eq_self
      rw [not_and_or]
      right
      norm_num [minQtyEff, jsOrQ, siStd]
    rw [calculatePositionParametersB]
    rw [if_neg (by norm_num [isValidNumber]), if_neg (by norm_num [isValidNumber]),
      if_neg (by simp),
      if_neg (by norm_num [stopLossDistance, stopLossPriceRaw, defaultRiskConfig])]
    rw [hloop]
    rw [if_pos (by norm_num [marginOfQty, usableBalance, defaultRiskConfig]),
      if_pos (by norm_num [minQtyEff, jsOrQ, siStd])]

/-- Witness for `C2_min_quantity_amended` at a concrete successful input
(balance 1000, entry price 100): the returned quantity is exactly the
clamped quantity. -/
theorem C2_min_quantity_amended_witness :
    quantityOf (calculatePositionParametersB defaultRiskConfig 1000 100 "LONG" siStd) =
      quantityClampedB defaultRiskConfig 1000 100 "LONG" siStd := by
  rw [calcB_ok_1000_100]
  exact C2_min_quantity_amended.1 defaultRiskConfig 1000 100 "LONG" siStd _
    (by norm_num [defaultRiskConfig]) calcB_ok_1000_100

/-! ## Claim C4: bracket correctness -/

/-- Claim C4 — confirmed.  For positive entry price and positive
stop-loss/take-profit percentages, the raw bracket prices straddle the
entry price: LONG has `stopLoss < entry < takeProfit`, SHORT has
`takeProfit < entry < stopLoss`; and on every successful sizing (either
draft) the output bracket fields are exactly the price-precision
rounding of these raw values. -/
theorem C4_bracket_straddle (cfg : RiskConfig) (e : ℚ) (he : 0 < e)
    (hsl : 0 < cfg.stopLossPercent) (htp : 0 < cfg.takeProfitPercent) :
    (stopLossPriceRaw cfg e "LONG" < e ∧ e < takeProfitPriceRaw cfg e "LONG") ∧
    (takeProfitPriceRaw cfg e "SHORT" < e ∧ e < stopLossPriceRaw cfg e "SHORT") ∧
    (∀ (b : ℚ) (d : String) (si : SymbolInfo) (r : PositionResult),
      calculatePositionParametersA cfg b e d si = .ok r →
        r.stopLoss = roundPrice (stopLossPriceRaw cfg e d) (ppEff si) ∧
        r.takeProfit = roundPrice (takeProfitPriceRaw cfg e d) (ppEff si)) ∧
    (∀ (b : ℚ) (d : String) (si : SymbolInfo) (r : PositionResult),
      calculatePositionParametersB cfg b e d si = .ok r →
        r.stopLoss = roundPrice (stopLossPriceRaw cfg e d) (ppEff si) ∧
        r.takeProfit = roundPrice (takeProfitPriceRaw cfg e d) (ppEff si)) := by
  have hes := mul_pos he hsl
  have het := mul_pos he htp
  refine ⟨⟨?_, ?_⟩, ⟨?_, ?_⟩, ?_, ?_⟩
  · rw [stopLossPriceRaw, if_pos rfl]; nlinarith
  · rw [takeProfitPriceRaw, if_pos rfl]; nlinarith
  · rw [takeProfitPriceRaw, if_neg (by decide)]; nlinarith
  · rw [stopLossPriceRaw, if_neg (by decide)]; nlinarith
  · intro b d si r hok
    unfold calculatePositionParametersA at hok
    split at hok
    · exact absurd hok (by simp)
    · split at hok
      · exact absurd hok (by simp)
      · split at hok
        · exact absurd hok (by simp)
        · split at hok
          · exact absurd hok (by simp)
          · cases Except.ok.inj hok
            exact ⟨rfl, rfl⟩
  · intro b d si r hok
    unfold calculatePositionParametersB at hok
    split at hok
    · exact absurd hok (by simp)
    · split at hok
      · exact absurd hok (by simp)
      · split at hok
        · exact absurd hok (by simp)
        · split at hok
          · exact absurd hok (by simp)
          · split at hok
            · split at hok
              · exact absurd hok (by simp)
              · cases Except.ok.inj hok
                exact ⟨rfl, rfl⟩
            · split at hok
              · split at hok
                · cases Except.ok.inj hok
                  exact ⟨rfl, rfl⟩
                · cases Except.ok.inj hok
                  exact ⟨rfl, rfl⟩
              · cases Except.ok.inj hok
                exact ⟨rfl, rfl⟩

/-- Witness for `C4_bracket_straddle` at entry price 100 with the
default configuration (stop-loss 0.3%, take-profit 0.5%). -/
theorem C4_bracket_straddle_witness :
    (stopLossPriceRaw defaultRiskConfig 100 "LONG" < 100 ∧
      100 < takeProfitPriceRaw defaultRiskConfig 100 "LONG") ∧
    (takeProfitPriceRaw defaultRiskConfig 100 "SHORT" < 100 ∧
      100 < stopLossPriceRaw defaultRiskConfig 100 "SHORT") :=
  ⟨(C4_bracket_straddle defaultRiskConfig 100 (by norm_num)
      (by norm_num [defaultRiskConfig]) (by norm_num [defaultRiskConfig])).1,
   (C4_bracket_straddle defaultRiskConfig 100 (by norm_num)
      (by norm_num [defaultRiskConfig]) (by norm_num [defaultRiskConfig])).2.1⟩

/-! ## Claim C8: sizing monotonicity -/

/-- `Math.floor` is monotone. -/
theorem jsFloor_mono {x y : ℚ} (h : x ≤ y) : jsFloor x ≤ jsFloor y := by
  unfold jsFloor
  exact_mod_cast Int.floor_mono h

/-- `Math.round` is monotone. -/
theorem jsRound_mono {x y : ℚ} (h : x ≤ y) : jsRound x ≤ jsRound y := by
  unfold jsRound
  exact_mod_cast Int.floor_mono (by linarith : x + 1/2 ≤ y + 1/2)

/-- The maximum cap is monotone. -/
theorem clampMaxQ_mono (si : SymbolInfo) {q1 q2 : ℚ} (h : q1 ≤ q2) :
    clampMaxQ si q1 ≤ clampMaxQ si q2 := by
  rcases hmx : si.maxQty with - | m
  · simp only [clampMaxQ, hmx]
    exact h
  · simp only [clampMaxQ, hmx]
    by_cases hm : m = 0
    · rw [if_pos hm, if_pos hm]; exact h
    · rw [if_neg hm, if_neg hm]
      by_cases h1 : q1 > m <;> by_cases h2 : q2 > m
      · rw [if_pos h1, if_pos h2]
      · rw [if_pos h1, if_neg h2]; push_neg at h2; linarith
      · rw [if_neg h1, if_pos h2]; push_neg at h1; linarith
      · rw [if_neg h1, if_neg h2]; exact h

/-- The fractional draft's rounded size is non-decreasing in the
balance (for nonnegative risk percentage and leverage and positive
entry price). -/
theorem sizeRoundedA_mono (cfg : RiskConfig) (e : ℚ) {b1 b2 : ℚ}
    (hb : b1 ≤ b2) (hp : 0 ≤ cfg.percentage) (hlev : 0 ≤ cfg.leverage)
    (he : 0 < e) : sizeRoundedA cfg b1 e ≤ sizeRoundedA cfg b2 e := by
  unfold sizeRoundedA usableBalance
  have harg : b1 * (99/100) * (cfg.percentage / 100) * cfg.leverage / e * 1000000 ≤
      b2 * (99/100) * (cfg.percentage / 100) * cfg.leverage / e * 1000000 := by
    gcongr
  have := jsRound_mono harg
  linarith

/-- For positive leverage, step 5 of the integer draft computes the
minimum of the risk-derived position size and the leverage-capped one. -/
theorem positionSizeB_eq_min (cfg : RiskConfig) (b e : ℚ) (d : String)
    (hlev : 0 < cfg.leverage) :
    positionSizeB cfg b e d =
      min (positionSizeInitialB cfg b e d) (usableBalance b * cfg.leverage) := by
  unfold positionSizeB
  split
  · rename_i hgt
    rw [gt_iff_lt, lt_div_iff₀ hlev] at hgt
    exact (min_eq_right (by linarith)).symm
  · rename_i hle
    rw [gt_iff_lt, not_lt, div_le_iff₀ hlev] at hle
    exact (min_eq_left (by linarith)).symm

/-- Risk amount of the integer draft is non-decreasing in the balance. -/
theorem riskAmountB_mono (cfg : RiskConfig) {b1 b2 : ℚ} (hb : b1 ≤ b2)
    (hp : 0 ≤ cfg.percentage) : riskAmountB cfg b1 ≤ riskAmountB cfg b2 := by
  unfold riskAmountB usableBalance
  gcongr

/-- Step 4/5 of the integer draft is non-decreasing in the balance (for
nonnegative risk percentage, positive leverage and positive entry
price). -/
theorem positionSizeB_mono (cfg : RiskConfig) (e : ℚ) (d : String)
    {b1 b2 : ℚ} (hb : b1 ≤ b2) (hp : 0 ≤ cfg.percentage)
    (hlev : 0 < cfg.leverage) (he : 0 < e) :
    positionSizeB cfg b1 e d ≤ positionSizeB cfg b2 e d := by
  rw [positionSizeB_eq_min cfg b1 e d hlev, positionSizeB_eq_min cfg b2 e d hlev]
  have hra := riskAmountB_mono cfg hb hp
  have hd : 0 ≤ stopLossDistance cfg e d := abs_nonneg _
  have h1 : positionSizeInitialB cfg b1 e d ≤ positionSizeInitialB cfg b2 e d := by
    unfold positionSizeInitialB
    have := div_le_div_of_nonneg_right hra hd
    nlinarith
  have h2 : usableBalance b1 * cfg.leverage ≤ usableBalance b2 * cfg.leverage := by
    unfold usableBalance
    nlinarith
  exact min_le_min h1 h2

/-- The integer draft's clamped quantity is non-decreasing in the
balance. -/
theorem quantityClampedB_mono (cfg : RiskConfig) (e : ℚ) (d : String)
    (si : SymbolInfo) {b1 b2 : ℚ} (hb : b1 ≤ b2) (hp : 0 ≤ cfg.percentage)
    (hlev : 0 < cfg.leverage) (he : 0 < e) :
    quantityClampedB cfg b1 e d si ≤ quantityClampedB cfg b2 e d si := by
  have hf : quantityFloorB cfg b1 e d ≤ quantityFloorB cfg b2 e d := by
    unfold quantityFloorB
    exact jsFloor_mono (div_le_div_of_nonneg_right (positionSizeB_mono cfg e d hb hp hlev he) he.le)
  unfold quantityClampedB
  apply clampMaxQ_mono
  by_cases h1 : quantityFloorB cfg b1 e d < minQtyEff si <;>
    by_cases h2 : quantityFloorB cfg b2 e d < minQtyEff si
  · rw [if_pos h1, if_pos h2]
  · rw [if_pos h1, if_neg h2]; push_neg at h2; linarith
  · rw [if_neg h1, if_pos h2]; push_neg at h1; linarith
  · rw [if_neg h1, if_neg h2]; exact hf

/-- Successful runs of the fractional draft return the clamped size and
imply a positive entry price. -/
theorem calculatePositionParametersA_ok_inv (cfg : RiskConfig) (b e : ℚ)
    (d : String) (si : SymbolInfo) (r : PositionResult)
    (hok : calculatePositionParametersA cfg b e d si = .ok r) :
    r = mkResultA cfg b e d si ∧ 0 < e := by
  unfold calculatePositionParametersA at hok
  split at hok
  · exact absurd hok (by simp)
  · split at hok
    · exact absurd hok (by simp)
    · rename_i hent
      have he : 0 < e := by
        rcases not_or.mp hent with ⟨-, h2⟩
        exact lt_of_not_le h2
      split at hok
      · exact absurd hok (by simp)
      · split at hok
        · exact absurd hok (by simp)
        · exact ⟨(Except.ok.inj hok).symm, he⟩

/-- Successful runs of the integer draft imply a positive entry price. -/
theorem calculatePositionParametersB_ok_entry_pos (cfg : RiskConfig) (b e : ℚ)
    (d : String) (si : SymbolInfo) (r : PositionResult)
    (hok : calculatePositionParametersB cfg b e d si = .ok r) : 0 < e := by
  unfold calculatePositionParametersB at hok
  split at hok
  · exact absurd hok (by simp)
  · split at hok
    · exact absurd hok (by simp)
    · rename_i hent
      rcases not_or.mp hent with ⟨-, h2⟩
      exact lt_of_not_le h2

/-- Claim C8 — confirmed.  For fixed entry price, risk configuration and
symbol constraints, the quantity computed by either draft of the
Position Sizer is non-decreasing in the balance, over all pairs of
balances on which the sizer succeeds (for the risk configuration
actually validated at startup: nonnegative risk percentage and positive
leverage). -/
theorem C8_sizing_monotone :
    (∀ (cfg : RiskConfig) (e : ℚ) (d : String) (si : SymbolInfo) (b1 b2 : ℚ)
        (r1 r2 : PositionResult),
      0 ≤ cfg.percentage → 0 ≤ cfg.leverage → b1 ≤ b2 →
      calculatePositionParametersA cfg b1 e d si = .ok r1 →
      calculatePositionParametersA cfg b2 e d si = .ok r2 →
      r1.quantity ≤ r2.quantity) ∧
    (∀ (cfg : RiskConfig) (e : ℚ) (d : String) (si : SymbolInfo) (b1 b2 : ℚ)
        (r1 r2 : PositionResult),
      0 ≤ cfg.percentage → 0 < cfg.leverage → b1 ≤ b2 →
      calculatePositionParametersB cfg b1 e d si = .ok r1 →
      calculatePositionParametersB cfg b2 e d si = .ok r2 →
      r1.quantity ≤ r2.quantity) := by
  constructor
  · intro cfg e d si b1 b2 r1 r2 hp hlev hb hok1 hok2
    obtain ⟨hr1, he⟩ := calculatePositionParametersA_ok_inv cfg b1 e d si r1 hok1
    obtain ⟨hr2, -⟩ := calculatePositionParametersA_ok_inv cfg b2 e d si r2 hok2
    rw [hr1, hr2]
    show sizeClampedA cfg b1 e si ≤ sizeClampedA cfg b2 e si
    unfold sizeClampedA
    exact clampMaxQ_mono si (sizeRoundedA_mono cfg e hb hp hlev he)
  · intro cfg e d si b1 b2 r1 r2 hp hlev hb hok1 hok2
    have he := calculatePositionParametersB_ok_entry_pos cfg b1 e d si r1 hok1
    rw [calculatePositionParametersB_ok_shape cfg b1 e d si r1 hlev hok1,
      calculatePositionParametersB_ok_shape cfg b2 e d si r2 hlev hok2]
    show quantityClampedB cfg b1 e d si ≤ quantityClampedB cfg b2 e d si
    exact quantityClampedB_mono cfg e d si hb hp hlev he

/-- Witness for `C8_sizing_monotone`: concrete successful runs at
balances 1000 and 2000 (entry price 100, default configuration) with
non-decreasing quantities. -/
theorem C8_sizing_monotone_witness :
    quantityOf (calculatePositionParametersA defaultRiskConfig 1000 100 "LONG" siStd) ≤
      quantityOf (calculatePositionParametersA defaultRiskConfig 2000 100 "LONG" siStd) ∧
    quantityOf (calculatePositionParametersB defaultRiskConfig 1000 100 "LONG" siStd) ≤
      quantityOf (calculatePositionParametersB defaultRiskConfig 2000 100 "LONG" siStd) := by
  constructor
  · rw [calcA_ok_1000_100, calcA_ok_2000_100]
    exact C8_sizing_monotone.1 defaultRiskConfig 100 "LONG" siStd 1000 2000 _ _
      (by norm_num [defaultRiskConfig]) (by norm_num [defaultRiskConfig]) (by norm_num)
      calcA_ok_1000_100 calcA_ok_2000_100
  · rw [calcB_ok_1000_100, calcB_ok_2000_100]
    exact C8_sizing_monotone.2 defaultRiskConfig 100 "LONG" siStd 1000 2000 _ _
      (by norm_num [defaultRiskConfig]) (by norm_num [defaultRiskConfig]) (by norm_num)
      calcB_ok_1000_100 calcB_ok_2000_100

/-! ## Symbol formatting (`formatSymbol` / `unformatSymbol`) -/

/-- Does `pat` occur at the head of `s`?  (Prefix test on character
lists, used to model JavaScript's `String.indexOf`.) -/
def startsWithL : List Char → List Char → Bool
  | [], _ => true
  | _ :: _, [] => false
  | a :: p, b :: s => a == b && startsWithL p s

/-- Index of the first occurrence of `pat` in `s`, as in JavaScript's
`String.indexOf` (`none` when absent). -/
def findPat (pat : List Char) : List Char → Option ℕ
  | [] => if startsWithL pat [] then some 0 else none
  | c :: t =>
    if startsWithL pat (c :: t) then some 0
    else (findPat pat t).map (· + 1)

/-- JavaScript `String.prototype.replace` with a plain-string pattern:
replace only the first occurrence of `pat` by `repl`.  Returns the
string unchanged when the pattern does not occur. -/
def replaceFirst (pat repl s : List Char) : List Char :=
  match findPat pat s with
  | none => s
  | some i => s.take i ++ repl ++ s.drop (i + pat.length)

/-- `formatSymbol` of the HTTP drafts (`gateio.service.js` first draft,
lines 158–161): `symbol.replace('USDT', '_USDT')` guarded by the falsy
check. -/
def formatSymbol (symbol : String) : String :=
  if symbol = "" then ""
  else ⟨replaceFirst "USDT".data "_USDT".data symbol.data⟩

/-- `unformatSymbol` of the HTTP drafts (first draft, lines 163–166):
`symbol.replace('_USDT', 'USDT')` guarded by the falsy check. -/
def unformatSymbol (symbol : String) : String :=
  if symbol = "" then ""
  else ⟨replaceFirst "_USDT".data "USDT".data symbol.data⟩

/-- End-anchored replacement, as performed by `replace(/USDT$/, ...)`. -/
def replaceSuffix (pat repl s : List Char) : List Char :=
  if pat <:+ s then s.take (s.length - pat.length) ++ repl else s

/-- `formatSymbol` of the second HTTP draft (lines 690–693):
`symbol.replace(/USDT$/, '_USDT')`. -/
def formatSymbolAnchored (symbol : String) : String :=
  if symbol = "" then ""
  else ⟨replaceSuffix "USDT".data "_USDT".data symbol.data⟩

/-- `unformatSymbol` of the second HTTP draft (lines 698–701):
`symbol.replace(/_USDT$/, 'USDT')`. -/
def unformatSymbolAnchored (symbol : String) : String :=
  if symbol = "" then ""
  else ⟨replaceSuffix "_USDT".data "USDT".data symbol.data⟩

/-- `startsWithL` decides list-prefix in the explicit-append sense. -/
theorem startsWithL_iff (p : List Char) : ∀ s : List Char,
    startsWithL p s = true ↔ ∃ t, p ++ t = s := by
  induction p with
  | nil => intro s; simp [startsWithL]
  | cons a p ih =>
    intro s
    cases s with
    | nil => simp [startsWithL]
    | cons b t =>
      simp only [startsWithL, Bool.and_eq_true, beq_iff_eq, ih, List.cons_append,
        List.cons.injEq]
      constructor
      · rintro ⟨rfl, u, rfl⟩
        exact ⟨u, rfl, rfl⟩
      · rintro ⟨u, h1, h2⟩
        exact ⟨h1, u, h2⟩

/-- A nonempty pattern cannot start an empty list. -/
theorem startsWithL_ne_nil {p s : List Char} (hp : p ≠ [])
    (h : startsWithL p s = true) : s ≠ [] := by
  intro hs
  subst hs
  cases p with
  | nil => exact hp rfl
  | cons a q => simp [startsWithL] at h

/-- Peeling one character off a successful prefix test. -/
theorem startsWithL_cons_drop {c : Char} {p s : List Char}
    (h : startsWithL (c :: p) s = true) : startsWithL p (s.drop 1) = true := by
  obtain ⟨t, ht⟩ := (startsWithL_iff (c :: p) s).mp h
  subst ht
  exact (startsWithL_iff p _).mpr ⟨t, by simp⟩

/-- When `findPat` fails, the pattern occurs at no position. -/
theorem findPat_none {pat : List Char} : ∀ {s : List Char},
    findPat pat s = none → ∀ j, startsWithL pat (s.drop j) = false := by
  intro s
  induction s with
  | nil =>
    intro h j
    rw [findPat] at h
    cases hs : startsWithL pat [] with
    | false => simpa using hs
    | true => rw [if_pos hs] at h; exact absurd h (by simp)
  | cons c t ih =>
    intro h j
    rw [findPat] at h
    cases hs : startsWithL pat (c :: t) with
    | true => rw [if_pos hs] at h; exact absurd h (by simp)
    | false =>
      rw [if_neg (by simp [hs])] at h
      cases j with
      | zero => simpa using hs
      | succ j =>
        have ht : findPat pat t = none := by
          cases hft : findPat pat t with
          | none => rfl
          | some k => rw [hft] at h; exact absurd h (by simp)
        simpa using ih ht j

/-- When `findPat` succeeds, the pattern occurs at the reported index. -/
theorem findPat_some_starts {pat : List Char} : ∀ {s : List Char} {i : ℕ},
    findPat pat s = some i → startsWithL pat (s.drop i) = true := by
  intro s
  induction s with
  | nil =>
    intro i h
    rw [findPat] at h
    cases hs : startsWithL pat [] with
    | false => rw [if_neg (by simp [hs])] at h; exact absurd h (by simp)
    | true =>
      rw [if_pos hs] at h
      cases Option.some.inj h
      simpa using hs
  | cons c t ih =>
    intro i h
    rw [findPat] at h
    cases hs : startsWithL pat (c :: t) with
    | true =>
      rw [if_pos hs] at h
      cases Option.some.inj h
      simpa using hs
    | false =>
      rw [if_neg (by simp [hs])] at h
      cases hft : findPat pat t with
      | none => rw [hft] at h; exact absurd h (by simp)
      | some k =>
        rw [hft] at h
        have h' : k + 1 = i := by simpa using h
        subst h'
        simpa using ih hft

/-- When `findPat` succeeds, no earlier position matches. -/
theorem findPat_some_min {pat : List Char} : ∀ {s : List Char} {i : ℕ},
    findPat pat s = some i → ∀ j < i, startsWithL pat (s.drop j) = false := by
  intro s
  induction s with
  | nil =>
    intro i h j hj
    rw [findPat] at h
    cases hs : startsWithL pat [] with
    | false => rw [if_neg (by simp [hs])] at h; exact absurd h (by simp)
    | true =>
      rw [if_pos hs] at h
      cases Option.some.inj h
      exact absurd hj (by simp)
  | cons c t ih =>
    intro i h j hj
    rw [findPat] at h
    cases hs : startsWithL pat (c :: t) with
    | true =>
      rw [if_pos hs] at h
      cases Option.some.inj h
      exact absurd hj (by simp)
    | false =>
      rw [if_neg (by simp [hs])] at h
      cases hft : findPat pat t with
      | none => rw [hft] at h; exact absurd h (by simp)
      | some k =>
        rw [hft] at h
        have h' : k + 1 = i := by simpa using h
        subst h'
        cases j with
        | zero => simpa using hs
        | succ j => simpa using ih hft j (by omega)

/-- Completeness: a first occurrence at `i` makes `findPat` report `i`. -/
theorem findPat_intro {pat : List Char} : ∀ {s : List Char} {i : ℕ},
    startsWithL pat (s.drop i) = true →
    (∀ j < i, startsWithL pat (s.drop j) = false) →
    findPat pat s = some i := by
  intro s
  induction s with
  | nil =>
    intro i hst hmin
    have h0 : startsWithL pat [] = true := by simpa using hst
    rw [findPat, if_pos h0]
    cases i with
    | zero => rfl
    | succ i => exact absurd (hmin 0 (by omega)) (by simp [h0])
  | cons c t ih =>
    intro i hst hmin
    cases i with
    | zero =>
      rw [findPat, if_pos (by simpa using hst)]
    | succ i =>
      have h0 : startsWithL pat (c :: t) = false := hmin 0 (by omega)
      rw [findPat, if_neg (by simp [h0])]
      have := ih (by simpa using hst) (fun j hj => by simpa using hmin (j + 1) (by omega))
      rw [this]
      rfl

/-- A list starts with itself followed by anything. -/
theorem startsWithL_self_append (p t : List Char) : startsWithL p (p ++ t) = true :=
  (startsWithL_iff p _).mpr ⟨t, rfl⟩

/-- A pattern matching at the head of `u ++ v` and fitting inside `u`
matches at the head of `u`. -/
theorem startsWithL_of_le_append {p : List Char} : ∀ {u : List Char} (v : List Char),
    startsWithL p (u ++ v) = true → p.length ≤ u.length → startsWithL p u = true := by
  induction p with
  | nil => intro u v _ _; cases u <;> rfl
  | cons a p ih =>
    intro u v h hl
    cases u with
    | nil => simp at hl
    | cons b u' =>
      rw [List.cons_append] at h
      simp only [startsWithL, Bool.and_eq_true] at h ⊢
      refine ⟨h.1, ih v h.2 ?_⟩
      simp only [List.length_cons] at hl
      omega

/-- A pattern matching at the head of `u ++ c :: v` and reaching past
`u` contains the character `c`. -/
theorem mem_of_startsWithL_append {c : Char} : ∀ (u p v : List Char),
    startsWithL p (u ++ c :: v) = true → u.length < p.length → c ∈ p := by
  intro u
  induction u with
  | nil =>
    intro p v h hl
    cases p with
    | nil => simp at hl
    | cons a p' =>
      simp only [List.nil_append, startsWithL, Bool.and_eq_true, beq_iff_eq] at h
      rcases h with ⟨rfl, -⟩
      exact List.mem_cons_self _ _
  | cons b u' ih =>
    intro p v h hl
    cases p with
    | nil => simp at hl
    | cons a p' =>
      simp only [List.cons_append, startsWithL, Bool.and_eq_true] at h
      refine List.mem_cons_of_mem a (ih p' v h.2 ?_)
      simp only [List.length_cons] at hl
      omega

/-- A pattern matching at the head of a `take` matches at the head of
the full list. -/
theorem startsWithL_take {p y : List Char} {k : ℕ}
    (h : startsWithL p (y.take k) = true) : startsWithL p y = true := by
  obtain ⟨t, ht⟩ := (startsWithL_iff p _).mp h
  refine (startsWithL_iff p y).mpr ⟨t ++ y.drop k, ?_⟩
  rw [← List.append_assoc, ht, List.take_append_drop]

/-- Replacing a nonempty occurrence by a nonempty replacement keeps the
list nonempty. -/
theorem replaceFirst_ne_nil {pat repl s : List Char} (hs : s ≠ []) (hr : repl ≠ []) :
    replaceFirst pat repl s ≠ [] := by
  unfold replaceFirst
  cases hf : findPat pat s with
  | none => simpa using hs
  | some i => simp [List.append_eq_nil, hr]

/-- Round trip of JavaScript first-occurrence replacement: inserting
`'_'` in front of the first occurrence of `pat` (a pattern that does not
contain `'_'`) and then removing the first occurrence of `'_' :: pat`
restores the original list. -/
theorem replaceFirst_round (pat : List Char) (hne : pat ≠ [])
    (hmem : '_' ∉ pat) (s : List Char) :
    replaceFirst ('_' :: pat) pat (replaceFirst pat ('_' :: pat) s) = s := by
  have hplen : 1 ≤ pat.length := List.length_pos.mpr hne
  cases hfind : findPat pat s with
  | none =>
    simp only [replaceFirst, hfind]
    have hnone : findPat ('_' :: pat) s = none := by
      cases hf2 : findPat ('_' :: pat) s with
      | none => rfl
      | some j =>
        exfalso
        have h1 := findPat_some_starts hf2
        have h2 := startsWithL_cons_drop h1
        rw [List.drop_drop] at h2
        have h3 := findPat_none hfind (j + 1)
        rw [h3] at h2
        exact absurd h2 (by simp)
    simp only [hnone]
  | some i =>
    have hst := findPat_some_starts hfind
    have hmin := findPat_some_min hfind
    have hslen : i < s.length := by
      by_contra hge
      push_neg at hge
      have hnil : s.drop i = [] := List.drop_eq_nil_of_le hge
      exact startsWithL_ne_nil hne hst hnil
    have htlen : (s.take i).length = i := by
      rw [List.length_take]
      omega
    obtain ⟨t, ht⟩ := (startsWithL_iff pat _).mp hst
    have htt : t = s.drop (i + pat.length) := by
      have h4 := congrArg (List.drop pat.length) ht
      rw [List.drop_left] at h4
      rw [h4, List.drop_drop]
    simp only [replaceFirst, hfind]
    have hfmt_find :
        findPat ('_' :: pat) (s.take i ++ ('_' :: pat) ++ s.drop (i + pat.length)) =
          some i := by
      apply findPat_intro
      · have hdi : (s.take i ++ ('_' :: pat) ++ s.drop (i + pat.length)).drop i =
            ('_' :: pat) ++ s.drop (i + pat.length) := by
          rw [List.append_assoc, List.drop_append_eq_append_drop, htlen, Nat.sub_self,
            List.drop_zero, List.drop_eq_nil_of_le (le_of_eq htlen), List.nil_append]
        rw [hdi]
        exact startsWithL_self_append _ _
      · intro j hj
        by_contra hT
        rw [Bool.not_eq_false] at hT
        have h2 := startsWithL_cons_drop hT
        rw [List.drop_drop] at h2
        have hfd : (s.take i ++ ('_' :: pat) ++ s.drop (i + pat.length)).drop (j + 1) =
            (s.take i).drop (j + 1) ++ ('_' :: pat) ++ s.drop (i + pat.length) := by
          rw [List.append_assoc, List.drop_append_eq_append_drop, htlen,
            Nat.sub_eq_zero_of_le (by omega), List.drop_zero, List.append_assoc]
        rw [hfd] at h2
        have hAlen : ((s.take i).drop (j + 1)).length = i - (j + 1) := by
          rw [List.length_drop, htlen]
        rcases le_or_lt pat.length ((s.take i).drop (j + 1)).length with hle | hlt
        · have h3 : startsWithL pat ((s.take i).drop (j + 1)) = true := by
            rw [List.append_assoc] at h2
            exact startsWithL_of_le_append _ h2 hle
          have h4 : startsWithL pat (s.drop (j + 1)) = true := by
            rw [List.drop_take] at h3
            exact startsWithL_take h3
          have hj1 : j + 1 < i := by omega
          rw [hmin (j + 1) hj1] at h4
          exact absurd h4 (by simp)
        · have hmm : '_' ∈ pat := by
            have h2' : startsWithL pat
                ((s.take i).drop (j + 1) ++ '_' :: (pat ++ s.drop (i + pat.length))) =
                  true := by
              rw [List.append_assoc, List.cons_append] at h2
              exact h2
            exact mem_of_startsWithL_append _ _ _ h2' hlt
          exact hmem hmm
    simp only [hfmt_find]
    have h5 : (s.take i ++ ('_' :: pat) ++ s.drop (i + pat.length)).take i = s.take i := by
      rw [List.append_assoc, List.take_append_eq_append_take, htlen, Nat.sub_self,
        List.take_zero, List.append_nil, List.take_take, min_self]
    have h6 : (s.take i ++ ('_' :: pat) ++ s.drop (i + pat.length)).drop
        (i + ('_' :: pat).length) = s.drop (i + pat.length) := by
      rw [List.append_assoc, List.drop_append_eq_append_drop, htlen,
        Nat.add_sub_cancel_left, List.drop_eq_nil_of_le (by rw [htlen]; omega),
        List.nil_append, List.drop_left]
    rw [h5, h6, ← htt, List.append_assoc, ht, List.take_append_drop]

/-- Round trip of the end-anchored replacement: appending `'_'` before a
final occurrence of `pat` and then stripping `'_' :: pat` from the end
restores the original list. -/
theorem replaceSuffix_round (pat : List Char) (s : List Char) :
    replaceSuffix ('_' :: pat) pat (replaceSuffix pat ('_' :: pat) s) = s := by
  by_cases hsuf : pat <:+ s
  · obtain ⟨b, hb⟩ := hsuf
    have hlen : s.length - pat.length = b.length := by
      rw [← hb, List.length_append]
      omega
    have hinner : replaceSuffix pat ('_' :: pat) s = b ++ '_' :: pat := by
      rw [replaceSuffix, if_pos ⟨b, hb⟩, hlen, ← hb, List.take_left]
    rw [hinner, replaceSuffix, if_pos ⟨b, rfl⟩]
    have hlen2 : (b ++ '_' :: pat).length - ('_' :: pat).length = b.length := by
      rw [List.length_append, Nat.add_sub_cancel]
    rw [hlen2, List.take_left]
    exact hb
  · have hinner : replaceSuffix pat ('_' :: pat) s = s := by
      rw [replaceSuffix, if_neg hsuf]
    rw [hinner, replaceSuffix, if_neg ?_]
    rintro ⟨u, hu⟩
    refine hsuf ⟨u ++ ['_'], ?_⟩
    rw [← hu, List.append_assoc]
    rfl

/-- End-anchored replacement with a nonempty replacement preserves
nonemptiness. -/
theorem replaceSuffix_ne_nil {pat repl s : List Char} (hs : s ≠ []) (hr : repl ≠ []) :
    replaceSuffix pat repl s ≠ [] := by
  unfold replaceSuffix
  split
  · simp [List.append_eq_nil, hr]
  · exact hs

/-- A string different from the empty string has nonempty character
data. -/
theorem data_ne_nil {s : String} (h : s ≠ "") : s.data ≠ [] := by
  intro hd
  apply h
  cases s with
  | mk d =>
    cases hd
    rfl

/-- Building a string from a nonempty character list gives a nonempty
string. -/
theorem mk_ne_empty {l : List Char} (h : l ≠ []) : (⟨l⟩ : String) ≠ "" := by
  intro hh
  apply h
  have hd : (⟨l⟩ : String).data = ("" : String).data := by rw [hh]
  exact hd

/-- Claim C9 — confirmed.  The symbol naming translation of the exchange
client is reversible on every string: `unformatSymbol (formatSymbol s) =
s` for the first-occurrence drafts (`replace('USDT', '_USDT')` /
`replace('_USDT', 'USDT')`) and for the end-anchored draft
(`replace(/USDT$/, '_USDT')` / `replace(/_USDT$/, 'USDT')`). -/
theorem C9_symbol_round_trip :
    (∀ s : String, unformatSymbol (formatSymbol s) = s) ∧
    (∀ s : String, unformatSymbolAnchored (formatSymbolAnchored s) = s) := by
  have hne : "USDT".data ≠ [] := by decide
  have hne2 : "_USDT".data ≠ [] := by decide
  have hmem : '_' ∉ "USDT".data := by decide
  have hdat : "_USDT".data = '_' :: "USDT".data := rfl
  constructor
  · intro s
    by_cases hs : s = ""
    · subst hs; rfl
    · rw [formatSymbol, if_neg hs, unformatSymbol,
        if_neg (mk_ne_empty (replaceFirst_ne_nil (data_ne_nil hs) hne2))]
      refine Eq.trans ?_ (show (⟨s.data⟩ : String) = s by cases s; rfl)
      show (⟨replaceFirst "_USDT".data "USDT".data
        (replaceFirst "USDT".data "_USDT".data s.data)⟩ : String) = ⟨s.data⟩
      rw [hdat, replaceFirst_round "USDT".data hne hmem s.data]
  · intro s
    by_cases hs : s = ""
    · subst hs; rfl
    · rw [formatSymbolAnchored, if_neg hs, unformatSymbolAnchored,
        if_neg (mk_ne_empty (replaceSuffix_ne_nil (data_ne_nil hs) hne2))]
      refine Eq.trans ?_ (show (⟨s.data⟩ : String) = s by cases s; rfl)
      show (⟨replaceSuffix "_USDT".data "USDT".data
        (replaceSuffix "USDT".data "_USDT".data s.data)⟩ : String) = ⟨s.data⟩
      rw [hdat, replaceSuffix_round "USDT".data s.data]

/-! ## Claim C5: idempotent leverage setting -/

/-- Error shape of a failed exchange request: the relevant parts of the
HTTP error object (`error.response.data.label` and `error.message`). -/
structure ApiError where
  label : Option String
  message : String
  deriving DecidableEq, Repr

/-- JavaScript `String.prototype.includes`. -/
def jsIncludes (sub s : String) : Bool := (findPat sub.data s.data).isSome

/-- `setLeverage` outcome handling of the first HTTP draft
(`gateio.service.js`, lines 303–333): an error response whose label is
`INVALID_PARAM_VALUE` (the exchange's "already at this leverage"
rejection) is converted into a successful `true`; any other error is
rethrown. -/
def setLeverageHandle1 (resp : Except ApiError Unit) : Except ApiError Bool :=
  match resp with
  | .ok _ => .ok true
  | .error e => if e.label = some "INVALID_PARAM_VALUE" then .ok true else .error e

/-- `setLeverage` outcome handling of the second draft (lines 855–881)
and the SDK draft: an error whose message contains
`'leverage not modified'` is converted into a successful `true`. -/
def setLeverageHandle2 (resp : Except ApiError Unit) : Except ApiError Bool :=
  match resp with
  | .ok _ => .ok true
  | .error e =>
    if jsIncludes "leverage not modified" e.message then .ok true else .error e

/-- Modelled from the spec: the exchange's set-leverage endpoint, which
is not part of this repository.  The spec's idempotence property
concerns the exchange rejecting a repeated `setLeverage` with an
"already at this leverage" error; the endpoint is modelled as answering
a repeated set with exactly the error label and message the drafts
special-case, and recording the new leverage otherwise. -/
def exchangeSetLeverage (current : Option ℚ) (lev : ℚ) :
    Except ApiError Unit × Option ℚ :=
  if current = some lev then
    (.error ⟨some "INVALID_PARAM_VALUE", "leverage not modified"⟩, current)
  else (.ok (), some lev)

/-- One `setLeverage` call of the first draft against the modelled
exchange: result and new exchange state. -/
def setLeverageCall1 (st : Option ℚ) (lev : ℚ) : Except ApiError Bool × Option ℚ :=
  (setLeverageHandle1 (exchangeSetLeverage st lev).1, (exchangeSetLeverage st lev).2)

/-- One `setLeverage` call of the second draft against the modelled
exchange. -/
def setLeverageCall2 (st : Option ℚ) (lev : ℚ) : Except ApiError Bool × Option ℚ :=
  (setLeverageHandle2 (exchangeSetLeverage st lev).1, (exchangeSetLeverage st lev).2)

/-- Claim C5 — confirmed.  Calling `setLeverage` twice with the same
leverage never produces a user-visible failure on the second call: both
drafts convert the exchange's "already at this leverage" error response
into a successful `true`, so both the first and the second call return
`.ok true` from any starting state. -/
theorem C5_setLeverage_idempotent (st : Option ℚ) (lev : ℚ) :
    (setLeverageCall1 st lev).1 = .ok true ∧
    (setLeverageCall1 (setLeverageCall1 st lev).2 lev).1 = .ok true ∧
    (setLeverageCall2 st lev).1 = .ok true ∧
    (setLeverageCall2 (setLeverageCall2 st lev).2 lev).1 = .ok true := by
  have hinc : jsIncludes "leverage not modified" "leverage not modified" = true := by
    decide
  have h1 : ∀ st', (setLeverageCall1 st' lev).1 = .ok true := by
    intro st'
    by_cases hst : st' = some lev
    · simp [setLeverageCall1, exchangeSetLeverage, if_pos hst, setLeverageHandle1]
    · simp [setLeverageCall1, exchangeSetLeverage, if_neg hst, setLeverageHandle1]
  have h2 : ∀ st', (setLeverageCall2 st' lev).1 = .ok true := by
    intro st'
    by_cases hst : st' = some lev
    · simp [setLeverageCall2, exchangeSetLeverage, if_pos hst, setLeverageHandle2, hinc]
    · simp [setLeverageCall2, exchangeSetLeverage, if_neg hst, setLeverageHandle2]
  exact ⟨h1 st, h1 _, h2 st, h2 _⟩

/-! ## Claim C10: parseInt truncation in getSymbolInfo -/

/-- Numeric value of a list of decimal digit characters. -/
def digitsVal (l : List Char) : ℕ :=
  l.foldl (fun a c => a * 10 + (c.toNat - '0'.toNat)) 0

/-- JavaScript `parseInt` on a decimal string: optional sign, then the
longest run of leading digits; trailing characters (such as a fractional
part) are ignored; `none` models `NaN` (no digits at all). -/
def jsParseInt (s : String) : Option ℤ :=
  match s.data.dropWhile (·.isWhitespace) with
  | '-' :: t =>
    if (t.takeWhile (·.isDigit)) = [] then none
    else some (-(digitsVal (t.takeWhile (·.isDigit)) : ℤ))
  | '+' :: t =>
    if (t.takeWhile (·.isDigit)) = [] then none
    else some ((digitsVal (t.takeWhile (·.isDigit)) : ℤ))
  | l =>
    if (l.takeWhile (·.isDigit)) = [] then none
    else some ((digitsVal (l.takeWhile (·.isDigit)) : ℤ))

/-- Unsigned part of JavaScript `parseFloat`: leading digits, optional
decimal point and further digits; trailing characters ignored. -/
def jsParseUnsigned (l : List Char) : Option ℚ :=
  match l.dropWhile (·.isDigit) with
  | '.' :: t =>
    if l.takeWhile (·.isDigit) = [] ∧ t.takeWhile (·.isDigit) = [] then none
    else some ((digitsVal (l.takeWhile (·.isDigit)) : ℚ) +
      (digitsVal (t.takeWhile (·.isDigit)) : ℚ) / 10 ^ (t.takeWhile (·.isDigit)).length)
  | _ =>
    if l.takeWhile (·.isDigit) = [] then none
    else some ((digitsVal (l.takeWhile (·.isDigit)) : ℚ))

/-- JavaScript `parseFloat` on a decimal string (`none` models `NaN`). -/
def jsParseFloat (s : String) : Option ℚ :=
  match s.data.dropWhile (·.isWhitespace) with
  | '-' :: t => (jsParseUnsigned t).map (fun q => -q)
  | '+' :: t => jsParseUnsigned t
  | l => jsParseUnsigned l

/-- JavaScript `v || d` for an optional string field (`undefined` and
the empty string are falsy). -/
def jsOrStr (v : Option String) (d : String) : String :=
  match v with
  | none => d
  | some s => if s = "" then d else s

/-- Raw contract record returned by the exchange's contract endpoint
(string-typed numeric fields, as on the wire). -/
structure RawContract where
  name : String
  order_size_min : Option String
  order_size_max : Option String
  order_price_round : Option String
  in_delisting : Bool
  quanto_multiplier : Option String

/-- `Math.floor(Math.log10 x)` on an optional rational (`none` = NaN;
non-positive arguments also give NaN). -/
def jsLog10Floor (x : Option ℚ) : Option ℤ :=
  match x with
  | none => none
  | some q => if 0 < q then some (Int.log 10 q) else none

/-- Output of the HTTP drafts' `getSymbolInfo` field mapping. -/
structure SymbolInfoOut where
  symbol : String
  contract : String
  minQty : Option ℤ
  maxQty : Option ℤ
  tickSize : Option ℤ
  pricePrecision : Option ℤ
  status : String
  quantoMultiplier : Option ℚ

/-- `getSymbolInfo`'s result construction in the HTTP drafts:
`minQty = parseInt(info.order_size_min || '1')`,
`maxQty = parseInt(info.order_size_max || '1000000')`,
price precision from `Math.abs(Math.floor(Math.log10(order_price_round)))`. -/
def getSymbolInfoResult (info : RawContract) : SymbolInfoOut :=
  { symbol := unformatSymbol info.name
    contract := info.name
    minQty := jsParseInt (jsOrStr info.order_size_min "1")
    maxQty := jsParseInt (jsOrStr info.order_size_max "1000000")
    tickSize := jsParseInt (jsOrStr info.order_size_min "1")
    pricePrecision :=
      (jsLog10Floor (jsParseFloat (jsOrStr info.order_price_round "0.01"))).map
        (fun z => (z.natAbs : ℤ))
    status := if info.in_delisting then "Delisting" else "Trading"
    quantoMultiplier := jsParseFloat (jsOrStr info.quanto_multiplier "0.0001") }

/-- Claim C10 — confirmed.  For every contract whose `order_size_min` is
the fractional string "0.1", the HTTP drafts' `getSymbolInfo` reports
`minQty = 0`: `parseInt` truncates at the decimal point, although the
actual minimum order size 0.1 is positive (`parseFloat` would give
1/10). -/
theorem C10_parseInt_truncation :
    (∀ info : RawContract, info.order_size_min = some "0.1" →
      (getSymbolInfoResult info).minQty = some 0) ∧
    jsParseInt "0.1" = some 0 ∧
    jsParseFloat "0.1" = some (1/10) := by
  have hint : jsParseInt "0.1" = some 0 := by decide
  have hfloat : jsParseFloat "0.1" = some (((0:ℕ) : ℚ) + ((1:ℕ) : ℚ) / 10 ^ (1:ℕ)) := rfl
  refine ⟨?_, hint, ?_⟩
  · intro info h
    simp only [getSymbolInfoResult, jsOrStr, h]
    rw [if_neg (by decide)]
    exact hint
  · rw [hfloat]
    norm_num

/-- Witness for `C10_parseInt_truncation` at a concrete contract record
with `order_size_min = "0.1"`. -/
theorem C10_parseInt_truncation_witness :
    (getSymbolInfoResult
      ⟨"BTC_USDT", some "0.1", some "1000000", some "0.01", false, some "0.0001"⟩).minQty =
      some 0 :=
  C10_parseInt_truncation.1 _ rfl

/-! ## Claim C7: configuration loading and validation (`settings.js`) -/

/-- The required credential variables of `src/config/settings.js`. -/
def requiredEnvVars : List String :=
  ["GATEIO_API_KEY", "GATEIO_API_SECRET", "TELEGRAM_BOT_TOKEN", "TELEGRAM_CHANNEL_ID"]

/-- ASCII lower-casing of a character, as in `String.prototype.toLowerCase`. -/
def charToLower (c : Char) : Char :=
  if 'A' ≤ c ∧ c ≤ 'Z' then Char.ofNat (c.toNat + 32) else c

/-- `String.prototype.toLowerCase` (ASCII fragment). -/
def jsToLower (s : String) : String := ⟨s.data.map charToLower⟩

/-- JavaScript falsiness of `process.env[x]`: absent or empty. -/
def jsFalsyEnv (v : Option String) : Bool :=
  match v with
  | none => true
  | some s => s == ""

/-- `process.env[k] || d`. -/
def envOr (env : String → Option String) (k d : String) : String :=
  jsOrStr (env k) d

/-- NaN-aware `x <= y` on a parsed number (`none` = NaN compares false). -/
def jsNumLE (x : Option ℚ) (y : ℚ) : Bool :=
  match x with
  | none => false
  | some q => decide (q ≤ y)

/-- NaN-aware `x > y` on a parsed number. -/
def jsNumGT (x : Option ℚ) (y : ℚ) : Bool :=
  match x with
  | none => false
  | some q => decide (y < q)

/-- NaN-aware `x <= y` on a parsed integer. -/
def jsIntLE (x : Option ℤ) (y : ℤ) : Bool :=
  match x with
  | none => false
  | some n => decide (n ≤ y)

/-- NaN-aware `x > y` on a parsed integer. -/
def jsIntGT (x : Option ℤ) (y : ℤ) : Bool :=
  match x with
  | none => false
  | some n => decide (y < n)

/-- NaN-aware `x < y` on a parsed integer. -/
def jsIntLT (x : Option ℤ) (y : ℤ) : Bool :=
  match x with
  | none => false
  | some n => decide (n < y)

/-- Gate.io section of the configuration. -/
structure GateSettings where
  apiKey : String
  apiSecret : String
  baseURL : String
  positionMode : String

/-- Telegram section of the configuration. -/
structure TelegramSettings where
  botToken : String
  channelId : String

/-- Risk section of the configuration (parsed numbers; `none` = NaN). -/
structure RiskSettings where
  percentage : Option ℚ
  leverage : Option ℤ
  takeProfitPercent : Option ℚ
  stopLossPercent : Option ℚ

/-- Trading section of the configuration. -/
structure TradingSettings where
  allowedSymbols : List String
  maxDailyTrades : Option ℤ
  maxOpenPositions : Option ℤ
  dryRun : Bool

/-- Trading-hours section of the configuration. -/
structure TradingHoursSettings where
  enabled : Bool
  startHour : Option ℤ
  endHour : Option ℤ
  timezone : String

/-- The full configuration object of `src/config/settings.js`. -/
structure AppConfig where
  gateio : GateSettings
  telegram : TelegramSettings
  risk : RiskSettings
  trading : TradingSettings
  tradingHours : TradingHoursSettings

/-- The `config` object literal of `src/config/settings.js` (lines
19–60), built from the environment with the source's defaults. -/
def buildConfig (env : String → Option String) : AppConfig :=
  { gateio :=
      { apiKey := (env "GATEIO_API_KEY").getD ""
        apiSecret := (env "GATEIO_API_SECRET").getD ""
        baseURL := "https://api.gateio.ws/api/v4"
        positionMode := jsToLower (envOr env "GATEIO_POSITION_MODE" "single_mode") }
    telegram :=
      { botToken := (env "TELEGRAM_BOT_TOKEN").getD ""
        channelId := (env "TELEGRAM_CHANNEL_ID").getD "" }
    risk :=
      { percentage := jsParseFloat (envOr env "RISK_PERCENTAGE" "2.5")
        leverage := jsParseInt (envOr env "LEVERAGE" "20")
        takeProfitPercent := jsParseFloat (envOr env "TAKE_PROFIT_PERCENT" "0.5")
        stopLossPercent := jsParseFloat (envOr env "STOP_LOSS_PERCENT" "0.3") }
    trading :=
      { allowedSymbols :=
          ((envOr env "ALLOWED_SYMBOLS" "ADAUSDT,TAOUSDT,UNIUSDT").splitOn ",").map
            String.trim
        maxDailyTrades := jsParseInt (envOr env "MAX_DAILY_TRADES" "20")
        maxOpenPositions := jsParseInt (envOr env "MAX_OPEN_POSITIONS" "3")
        dryRun := env "DRY_RUN" == some "true" }
    tradingHours :=
      { enabled := env "TRADING_HOURS_ENABLED" == some "true"
        startHour := jsParseInt (envOr env "TRADING_START_HOUR" "6")
        endHour := jsParseInt (envOr env "TRADING_END_HOUR" "22")
        timezone := envOr env "TIMEZONE" "UTC" } }

/-- Module evaluation of `src/config/settings.js`: the required-variable
loop (lines 13–17) followed by the validation block (lines 62–89).
Returns the configuration or the first validation error.  Note: the
source validates risk percentage, leverage, trade/position counts,
trading hours and position mode — but not the take-profit or stop-loss
percentages. -/
def loadConfig (env : String → Option String) : Except String AppConfig :=
  if jsFalsyEnv (env "GATEIO_API_KEY") then
    .error "Missing required environment variable: GATEIO_API_KEY"
  else if jsFalsyEnv (env "GATEIO_API_SECRET") then
    .error "Missing required environment variable: GATEIO_API_SECRET"
  else if jsFalsyEnv (env "TELEGRAM_BOT_TOKEN") then
    .error "Missing required environment variable: TELEGRAM_BOT_TOKEN"
  else if jsFalsyEnv (env "TELEGRAM_CHANNEL_ID") then
    .error "Missing required environment variable: TELEGRAM_CHANNEL_ID"
  else if jsNumLE (buildConfig env).risk.percentage 0 ||
      jsNumGT (buildConfig env).risk.percentage 100 then
    .error "RISK_PERCENTAGE must be between 0 and 100"
  else if jsIntLE (buildConfig env).risk.leverage 0 ||
      jsIntGT (buildConfig env).risk.leverage 100 then
    .error "LEVERAGE must be between 1 and 100"
  else if jsIntLE (buildConfig env).trading.maxDailyTrades 0 then
    .error "MAX_DAILY_TRADES must be greater than 0"
  else if jsIntLE (buildConfig env).trading.maxOpenPositions 0 then
    .error "MAX_OPEN_POSITIONS must be greater than 0"
  else if jsIntLT (buildConfig env).tradingHours.startHour 0 ||
      jsIntGT (buildConfig env).tradingHours.startHour 23 then
    .error "TRADING_START_HOUR must be between 0 and 23"
  else if jsIntLT (buildConfig env).tradingHours.endHour 0 ||
      jsIntGT (buildConfig env).tradingHours.endHour 23 then
    .error "TRADING_END_HOUR must be between 0 and 23"
  else if ¬ ((buildConfig env).gateio.positionMode = "single_mode" ∨
      (buildConfig env).gateio.positionMode = "dual_mode") then
    .error "GATEIO_POSITION_MODE must be either single_mode or dual_mode"
  else
    .ok (buildConfig env)

/-- Did configuration loading succeed? -/
def isOkConfig (x : Except String AppConfig) : Bool :=
  match x with
  | .ok _ => true
  | .error _ => false

/-- Environment fixture falsifying claim C7: all credentials present,
risk values at their (valid) defaults, but `TAKE_PROFIT_PERCENT = "-1"`. -/
def envNegTakeProfit : String → Option String := fun k =>
  if k = "GATEIO_API_KEY" then some "key"
  else if k = "GATEIO_API_SECRET" then some "secret"
  else if k = "TELEGRAM_BOT_TOKEN" then some "token"
  else if k = "TELEGRAM_CHANNEL_ID" then some "channel"
  else if k = "TAKE_PROFIT_PERCENT" then some "-1"
  else none

/-- Claim C7 — counterexample to the claim as stated.  Configuration
loading succeeds on an environment whose take-profit percentage is the
non-positive value −1: `settings.js` never validates the take-profit or
stop-loss percentages, so startup is not aborted. -/
theorem C7_config_validation_counterexample :
    loadConfig envNegTakeProfit = .ok (buildConfig envNegTakeProfit) ∧
    (buildConfig envNegTakeProfit).risk.takeProfitPercent = some (-1) ∧
    ¬ (0 < (-1 : ℚ)) := by
  have hperc : (buildConfig envNegTakeProfit).risk.percentage =
      some (((2:ℕ) : ℚ) + ((5:ℕ) : ℚ) / 10 ^ (1:ℕ)) := rfl
  have htp : (buildConfig envNegTakeProfit).risk.takeProfitPercent =
      some (-((1:ℕ) : ℚ)) := rfl
  refine ⟨?_, ?_, by norm_num⟩
  · rw [loadConfig]
    rw [if_neg (by decide), if_neg (by decide), if_neg (by decide), if_neg (by decide)]
    rw [if_neg ?hperc]
    case hperc =>
      rw [hperc]
      simp only [jsNumLE, jsNumGT, Bool.or_eq_true, decide_eq_true_eq]
      push_neg
      constructor <;> [skip; skip] <;> push_cast <;> norm_num
    rw [if_neg (by decide), if_neg (by decide), if_neg (by decide), if_neg (by decide),
      if_neg (by decide), if_neg (by decide)]
  · rw [htp]
    norm_num

/-- Claim C7 — corrected.  Loading aborts for every missing (or empty)
required credential, and for a parsed risk percentage outside `(0, 100]`
or a parsed leverage outside `[1, 100]`; but the take-profit and
stop-loss percentages are never validated, so a non-positive value there
does not abort startup. -/
theorem C7_config_validation_amended :
    (∀ env : String → Option String,
      (jsFalsyEnv (env "GATEIO_API_KEY") = true ∨
       jsFalsyEnv (env "GATEIO_API_SECRET") = true ∨
       jsFalsyEnv (env "TELEGRAM_BOT_TOKEN") = true ∨
       jsFalsyEnv (env "TELEGRAM_CHANNEL_ID") = true) →
      isOkConfig (loadConfig env) = false) ∧
    (∀ (env : String → Option String) (p : ℚ),
      (buildConfig env).risk.percentage = some p → (p ≤ 0 ∨ 100 < p) →
      isOkConfig (loadConfig env) = false) ∧
    (∀ (env : String → Option String) (n : ℤ),
      (buildConfig env).risk.leverage = some n → (n ≤ 0 ∨ 100 < n) →
      isOkConfig (loadConfig env) = false) := by
  refine ⟨?_, ?_, ?_⟩
  · intro env hmiss
    unfold loadConfig
    by_cases h1 : jsFalsyEnv (env "GATEIO_API_KEY") = true
    · rw [if_pos h1]; rfl
    · rw [if_neg h1]
      by_cases h2 : jsFalsyEnv (env "GATEIO_API_SECRET") = true
      · rw [if_pos h2]; rfl
      · rw [if_neg h2]
        by_cases h3 : jsFalsyEnv (env "TELEGRAM_BOT_TOKEN") = true
        · rw [if_pos h3]; rfl
        · rw [if_neg h3]
          by_cases h4 : jsFalsyEnv (env "TELEGRAM_CHANNEL_ID") = true
          · rw [if_pos h4]; rfl
          · rcases hmiss with h | h | h | h
            exacts [absurd h h1, absurd h h2, absurd h h3, absurd h h4]
  · intro env p hp hrange
    have hcond : (jsNumLE (buildConfig env).risk.percentage 0 ||
        jsNumGT (buildConfig env).risk.percentage 100) = true := by
      rw [hp]
      simp only [jsNumLE, jsNumGT, Bool.or_eq_true, decide_eq_true_eq]
      exact hrange
    unfold loadConfig
    by_cases h1 : jsFalsyEnv (env "GATEIO_API_KEY") = true
    · rw [if_pos h1]; rfl
    · rw [if_neg h1]
      by_cases h2 : jsFalsyEnv (env "GATEIO_API_SECRET") = true
      · rw [if_pos h2]; rfl
      · rw [if_neg h2]
        by_cases h3 : jsFalsyEnv (env "TELEGRAM_BOT_TOKEN") = true
        · rw [if_pos h3]; rfl
        · rw [if_neg h3]
          by_cases h4 : jsFalsyEnv (env "TELEGRAM_CHANNEL_ID") = true
          · rw [if_pos h4]; rfl
          · rw [if_neg h4, if_pos hcond]; rfl
  · intro env n hn hrange
    have hcond : (jsIntLE (buildConfig env).risk.leverage 0 ||
        jsIntGT (buildConfig env).risk.leverage 100) = true := by
      rw [hn]
      simp only [jsIntLE, jsIntGT, Bool.or_eq_true, decide_eq_true_eq]
      exact hrange
    unfold loadConfig
    by_cases h1 : jsFalsyEnv (env "GATEIO_API_KEY") = true
    · rw [if_pos h1]; rfl
    · rw [if_neg h1]
      by_cases h2 : jsFalsyEnv (env "GATEIO_API_SECRET") = true
      · rw [if_pos h2]; rfl
      · rw [if_neg h2]
        by_cases h3 : jsFalsyEnv (env "TELEGRAM_BOT_TOKEN") = true
        · rw [if_pos h3]; rfl
        · rw [if_neg h3]
          by_cases h4 : jsFalsyEnv (env "TELEGRAM_CHANNEL_ID") = true
          · rw [if_pos h4]; rfl
          · rw [if_neg h4]
            by_cases h5 : (jsNumLE (buildConfig env).risk.percentage 0 ||
                jsNumGT (buildConfig env).risk.percentage 100) = true
            · rw [if_pos h5]; rfl
            · rw [if_neg h5, if_pos hcond]; rfl

/-- Environment fixture with a missing API key. -/
def envMissingKey : String → Option String := fun k =>
  if k = "GATEIO_API_SECRET" then some "secret"
  else if k = "TELEGRAM_BOT_TOKEN" then some "token"
  else if k = "TELEGRAM_CHANNEL_ID" then some "channel"
  else none

/-- Environment fixture with an out-of-range risk percentage. -/
def envBadRisk : String → Option String := fun k =>
  if k = "GATEIO_API_KEY" then some "key"
  else if k = "GATEIO_API_SECRET" then some "secret"
  else if k = "TELEGRAM_BOT_TOKEN" then some "token"
  else if k = "TELEGRAM_CHANNEL_ID" then some "channel"
  else if k = "RISK_PERCENTAGE" then some "150"
  else none

/-- Witness for `C7_config_validation_amended`: loading aborts for a
missing API key and for `RISK_PERCENTAGE = 150`. -/
theorem C7_config_validation_amended_witness :
    isOkConfig (loadConfig envMissingKey) = false ∧
    isOkConfig (loadConfig envBadRisk) = false := by
  constructor
  · exact C7_config_validation_amended.1 envMissingKey (Or.inl (by decide))
  · refine C7_config_validation_amended.2.1 envBadRisk ((150:ℕ) : ℚ) rfl ?_
    right
    push_cast
    norm_num

/-! ## Claim C6: query-string canonicalization (`buildQueryString`) -/

/-- An atomic query-parameter value (string or number, stringified by
`String(value)` on append). -/
inductive QueryAtom where
  | s (v : String)
  | n (v : ℤ)
  deriving DecidableEq, Repr

/-- `String(value)` for an atom. -/
def QueryAtom.toStr : QueryAtom → String
  | .s v => v
  | .n v => toString v

/-- A query-parameter value as accepted by `buildQueryString`:
plain value, array (appended repeatedly), `null` or `undefined`
(skipped). -/
inductive QueryVal where
  | atom (a : QueryAtom)
  | arr (items : List QueryAtom)
  | nullv
  | undef
  deriving DecidableEq, Repr

/-- UTF-8 encoding of one character, as a list of byte values. -/
def utf8Bytes (c : Char) : List ℕ :=
  let n := c.toNat
  if n < 0x80 then [n]
  else if n < 0x800 then [0xC0 ||| (n >>> 6), 0x80 ||| (n &&& 0x3F)]
  else if n < 0x10000 then
    [0xE0 ||| (n >>> 12), 0x80 ||| ((n >>> 6) &&& 0x3F), 0x80 ||| (n &&& 0x3F)]
  else
    [0xF0 ||| (n >>> 18), 0x80 ||| ((n >>> 12) &&& 0x3F),
     0x80 ||| ((n >>> 6) &&& 0x3F), 0x80 ||| (n &&& 0x3F)]

/-- Uppercase hexadecimal digit. -/
def hexDigitUpper (n : ℕ) : Char :=
  if n < 10 then Char.ofNat ('0'.toNat + n) else Char.ofNat ('A'.toNat + n - 10)

/-- Percent-encoding of one byte. -/
def percentEncodeByte (b : ℕ) : List Char :=
  ['%', hexDigitUpper (b / 16), hexDigitUpper (b % 16)]

/-- Characters kept verbatim by `application/x-www-form-urlencoded`
serialization (`URLSearchParams.toString`). -/
def isFormUnreserved (c : Char) : Bool :=
  c.isAlphanum || c = '*' || c = '-' || c = '.' || c = '_'

/-- Form-encoding of one character: kept, `' '` becomes `'+'`, anything
else is percent-encoded per UTF-8 byte. -/
def formEncodeChar (c : Char) : List Char :=
  if isFormUnreserved c then [c]
  else if c = ' ' then ['+']
  else (utf8Bytes c).foldr (fun b acc => percentEncodeByte b ++ acc) []

/-- Form-encoding of a string (`URLSearchParams` serialization). -/
def formEncode (s : String) : String :=
  ⟨s.data.foldr (fun c acc => formEncodeChar c ++ acc) []⟩

/-- The `(key, value)` entries appended for one parameter:
`undefined`/`null` are skipped, arrays are appended item by item. -/
def queryPairsOf (k : String) (v : QueryVal) : List (String × String) :=
  match v with
  | .undef => []
  | .nullv => []
  | .arr items => items.map (fun a => (k, a.toStr))
  | .atom a => [(k, a.toStr)]

/-- Lexicographic code-point comparison of key strings, as performed by
JavaScript's default array sort comparator. -/
def keyLeB : List Char → List Char → Bool
  | [], _ => true
  | _ :: _, [] => false
  | a :: s, b :: t => if a < b then true else if b < a then false else keyLeB s t

/-- `keyLeB` is total. -/
theorem keyLeB_total : ∀ x y : List Char, keyLeB x y = true ∨ keyLeB y x = true
  | [], _ => Or.inl rfl
  | _ :: _, [] => Or.inr rfl
  | a :: s, b :: t => by
    rw [keyLeB, keyLeB]
    by_cases hab : a < b
    · exact Or.inl (by rw [if_pos hab])
    · by_cases hba : b < a
      · exact Or.inr (by rw [if_pos hba])
      · rcases keyLeB_total s t with h | h
        · exact Or.inl (by rw [if_neg hab, if_neg hba]; exact h)
        · exact Or.inr (by rw [if_neg hba, if_neg hab]; exact h)

/-- `keyLeB` is transitive. -/
theorem keyLeB_trans : ∀ x y z : List Char,
    keyLeB x y = true → keyLeB y z = true → keyLeB x z = true
  | [], _, _, _, _ => rfl
  | _ :: _, [], _, h1, _ => by simp [keyLeB] at h1
  | _ :: _, _ :: _, [], _, h2 => by simp [keyLeB] at h2
  | a :: s, b :: t, c :: u, h1, h2 => by
    rw [keyLeB] at h1 h2 ⊢
    by_cases hab : a < b
    · by_cases hbc : b < c
      · rw [if_pos (lt_trans hab hbc)]
      · by_cases hcb : c < b
        · rw [if_pos hcb, if_neg (lt_asymm hcb)] at h2
          exact absurd h2 (by simp)
        · have hbceq : b = c := le_antisymm (not_lt.mp hcb) (not_lt.mp hbc)
          rw [if_pos (hbceq ▸ hab)]
    · by_cases hba : b < a
      · rw [if_pos hba, if_neg (lt_asymm hba)] at h1
        exact absurd h1 (by simp)
      · have habeq : a = b := le_antisymm (not_lt.mp hba) (not_lt.mp hab)
        subst habeq
        rw [if_neg hab, if_neg hba] at h1
        by_cases hac : a < c
        · rw [if_pos hac]
        · by_cases hca : c < a
          · rw [if_pos hca, if_neg (lt_asymm hca)] at h2
            exact absurd h2 (by simp)
          · rw [if_neg hac, if_neg hca] at h2 ⊢
            exact keyLeB_trans s t u h1 h2

/-- `keyLeB` is antisymmetric. -/
theorem keyLeB_antisymm : ∀ x y : List Char,
    keyLeB x y = true → keyLeB y x = true → x = y
  | [], [], _, _ => rfl
  | [], _ :: _, _, h2 => by simp [keyLeB] at h2
  | _ :: _, [], h1, _ => by simp [keyLeB] at h1
  | a :: s, b :: t, h1, h2 => by
    rw [keyLeB] at h1 h2
    by_cases hab : a < b
    · rw [if_neg (lt_asymm hab), if_pos hab] at h2
      exact absurd h2 (by simp)
    · by_cases hba : b < a
      · rw [if_pos hba, if_neg (lt_asymm hba)] at h1
        exact absurd h1 (by simp)
      · have habeq : a = b := le_antisymm (not_lt.mp hba) (not_lt.mp hab)
        subst habeq
        rw [if_neg hab, if_neg hba] at h1 h2
        rw [keyLeB_antisymm s t h1 h2]

/-- Key-ordering used by `Object.keys(queryParams).sort()`. -/
def keyLe (p q : String × QueryVal) : Prop := keyLeB p.1.data q.1.data = true

/-- Insertion into a key-sorted parameter list. -/
def insertByKey (p : String × QueryVal) : List (String × QueryVal) → List (String × QueryVal)
  | [] => [p]
  | q :: t => if keyLeB p.1.data q.1.data then p :: q :: t else q :: insertByKey p t

/-- Ascending key sort of the parameter list (`Object.keys(...).sort()`
on an object with unique keys). -/
def sortByKey : List (String × QueryVal) → List (String × QueryVal)
  | [] => []
  | p :: t => insertByKey p (sortByKey t)

/-- `buildQueryString` of the second HTTP draft (`gateio.service.js`,
lines 578–596): sort the keys, skip `undefined`/`null`, append arrays
item by item, and serialize as `key=value` pairs joined by `&` with
form-encoding of keys and values. -/
def buildQueryString (params : List (String × QueryVal)) : String :=
  String.intercalate "&"
    (((sortByKey params).foldr (fun p acc => queryPairsOf p.1 p.2 ++ acc) []).map
      (fun p => formEncode p.1 ++ "=" ++ formEncode p.2))

/-- Inserting permutes to consing. -/
theorem insertByKey_perm (p : String × QueryVal) :
    ∀ l, (insertByKey p l).Perm (p :: l)
  | [] => List.Perm.refl _
  | q :: t => by
    rw [insertByKey]
    split
    · exact List.Perm.refl _
    · exact ((insertByKey_perm p t).cons q).trans (List.Perm.swap p q t)

/-- Sorting is a permutation. -/
theorem sortByKey_perm : ∀ l, (sortByKey l).Perm l
  | [] => List.Perm.refl _
  | p :: t => (insertByKey_perm p (sortByKey t)).trans ((sortByKey_perm t).cons p)

/-- Insertion preserves key-sortedness. -/
theorem insertByKey_sorted (p : String × QueryVal) :
    ∀ {l : List (String × QueryVal)}, l.Pairwise keyLe →
      (insertByKey p l).Pairwise keyLe := by
  intro l
  induction l with
  | nil => intro _; simp [insertByKey, keyLe, List.Pairwise]
  | cons q t ih =>
    intro hl
    rw [insertByKey]
    rcases List.pairwise_cons.mp hl with ⟨hq, ht⟩
    split
    · rename_i hle
      refine List.pairwise_cons.mpr ⟨?_, hl⟩
      intro x hx
      rcases List.mem_cons.mp hx with rfl | hx
      · exact hle
      · exact keyLeB_trans _ _ _ hle (hq x hx)
    · rename_i hgt
      refine List.pairwise_cons.mpr ⟨?_, ih ht⟩
      intro x hx
      rcases List.mem_cons.mp ((insertByKey_perm p t).mem_iff.mp hx) with heq | hx
      · rw [heq]
        rcases keyLeB_total p.1.data q.1.data with h | h
        · exact absurd h hgt
        · exact h
      · exact hq x hx

/-- The sort produces a key-sorted list. -/
theorem sortByKey_sorted : ∀ l : List (String × QueryVal),
    (sortByKey l).Pairwise keyLe
  | [] => by simp [sortByKey]
  | p :: t => insertByKey_sorted p (sortByKey_sorted t)

/-- Claim C6 — confirmed.  `buildQueryString` is independent of the
insertion order of the keys: for any two parameter lists that are
permutations of each other with no duplicate keys, the built query
strings coincide. -/
theorem C6_query_canonicalization (l1 l2 : List (String × QueryVal))
    (hperm : l1.Perm l2) (hnodup : (l1.map Prod.fst).Nodup) :
    buildQueryString l1 = buildQueryString l2 := by
  haveI : IsAntisymm (String × QueryVal) (fun p q => keyLe p q ∧ p.1 ≠ q.1) :=
    ⟨fun a b h1 h2 => by
      exact (h1.2 (String.ext (keyLeB_antisymm _ _ h1.1 h2.1))).elim⟩
  have hsymm : ∀ {x y : String × QueryVal}, x.1 ≠ y.1 → y.1 ≠ x.1 :=
    fun h => h.symm
  have hsortperm : (sortByKey l1).Perm (sortByKey l2) :=
    (sortByKey_perm l1).trans (hperm.trans (sortByKey_perm l2).symm)
  have hne1 : l1.Pairwise (fun p q : String × QueryVal => p.1 ≠ q.1) :=
    List.pairwise_map.mp hnodup
  have hnes1 : (sortByKey l1).Pairwise (fun p q : String × QueryVal => p.1 ≠ q.1) :=
    (List.Perm.pairwise_iff hsymm (sortByKey_perm l1)).mpr hne1
  have hne2 : l2.Pairwise (fun p q : String × QueryVal => p.1 ≠ q.1) :=
    (List.Perm.pairwise_iff hsymm hperm).mp hne1
  have hnes2 : (sortByKey l2).Pairwise (fun p q : String × QueryVal => p.1 ≠ q.1) :=
    (List.Perm.pairwise_iff hsymm (sortByKey_perm l2)).mpr hne2
  have hs1 : (sortByKey l1).Pairwise (fun p q : String × QueryVal => keyLe p q ∧ p.1 ≠ q.1) :=
    (sortByKey_sorted l1).and hnes1
  have hs2 : (sortByKey l2).Pairwise (fun p q : String × QueryVal => keyLe p q ∧ p.1 ≠ q.1) :=
    (sortByKey_sorted l2).and hnes2
  have heq : sortByKey l1 = sortByKey l2 :=
    List.eq_of_perm_of_sorted hsortperm hs1 hs2
  rw [buildQueryString, buildQueryString, heq]

/-- Witness for `C6_query_canonicalization`: the spec's example
`{b:2, a:1}` and `{a:1, b:2}` both serialize to `a=1&b=2`. -/
theorem C6_query_canonicalization_witness :
    buildQueryString [("b", .atom (.n 2)), ("a", .atom (.n 1))] =
      buildQueryString [("a", .atom (.n 1)), ("b", .atom (.n 2))] ∧
    buildQueryString [("b", .atom (.n 2)), ("a", .atom (.n 1))] = "a=1&b=2" := by
  constructor
  · exact C6_query_canonicalization _ _ (by decide) (by decide)
  · decide


/-! ## Claim C3: signature generation (SHA-512 / HMAC-SHA512) -/

/-- UTF-8 bytes of a whole string (Node `crypto.update` with a string
argument uses UTF-8 encoding). -/
def strBytes (s : String) : List ℕ :=
  s.data.foldr (fun c acc => utf8Bytes c ++ acc) []

def w64 (n : ℕ) : ℕ := n % 2 ^ 64

def rotr64 (n x : ℕ) : ℕ := w64 ((x >>> n) ||| (x <<< (64 - n)))

def bigSigma0 (x : ℕ) : ℕ := rotr64 28 x ^^^ rotr64 34 x ^^^ rotr64 39 x
def bigSigma1 (x : ℕ) : ℕ := rotr64 14 x ^^^ rotr64 18 x ^^^ rotr64 41 x
def smallSigma0 (x : ℕ) : ℕ := rotr64 1 x ^^^ rotr64 8 x ^^^ (x >>> 7)
def smallSigma1 (x : ℕ) : ℕ := rotr64 19 x ^^^ rotr64 61 x ^^^ (x >>> 6)

def chWord (x y z : ℕ) : ℕ := (x &&& y) ^^^ ((x ^^^ (2 ^ 64 - 1)) &&& z)
def majWord (x y z : ℕ) : ℕ := (x &&& y) ^^^ (x &&& z) ^^^ (y &&& z)

/-- Trial-division primality test, used only to derive the SHA-512
constants. -/
def isPrimeB (n : ℕ) : Bool :=
  2 ≤ n && ((List.range 21).drop 2).all (fun d => d == n || n % d != 0)

/-- The first `k` primes (the eightieth prime is 409). -/
def firstPrimes (k : ℕ) : List ℕ := ((List.range 512).filter isPrimeB).take k

/-- Integer `e`-th root of `n` by binary search over `bits` bits. -/
def bitRoot (e bits n : ℕ) : ℕ :=
  (List.range bits).foldr (fun i acc => if (acc + 2 ^ i) ^ e ≤ n then acc + 2 ^ i else acc) 0

/-- The 80 SHA-512 round constants: the first 64 bits of the fractional
parts of the cube roots of the first eighty primes (FIPS 180-4, 4.2.3). -/
def K512 : List ℕ := (firstPrimes 80).map (fun p => bitRoot 3 87 (p * 2 ^ 192) % 2 ^ 64)

/-- The SHA-512 initial hash value: the first 64 bits of the fractional
parts of the square roots of the first eight primes (FIPS 180-4, 5.3.5). -/
def H512init : List ℕ := (firstPrimes 8).map (fun p => bitRoot 2 70 (p * 2 ^ 128) % 2 ^ 64)

def beBytes (k n : ℕ) : List ℕ :=
  ((List.range k).reverse).map (fun i => (n >>> (8 * i)) &&& 0xFF)

def padSha512 (msg : List ℕ) : List ℕ :=
  msg ++ [0x80] ++ List.replicate ((239 - msg.length % 128) % 128) 0
    ++ beBytes 16 (8 * msg.length)

def toBlocks : ℕ → List ℕ → List (List ℕ)
  | 0, _ => []
  | _, [] => []
  | fuel + 1, b :: t => ((b :: t).take 128) :: toBlocks fuel ((b :: t).drop 128)

def bytesToWord (bs : List ℕ) : ℕ := bs.foldl (fun acc b => acc * 256 + b) 0

def blockWords (block : List ℕ) : List ℕ :=
  (List.range 16).map (fun i => bytesToWord ((block.drop (8 * i)).take 8))

def stepW (w : List ℕ) : List ℕ :=
  w ++ [w64 (smallSigma1 (w.getD (w.length - 2) 0) + w.getD (w.length - 7) 0 +
    smallSigma0 (w.getD (w.length - 15) 0) + w.getD (w.length - 16) 0)]

def fullW (ws : List ℕ) : List ℕ := (List.range 64).foldl (fun w _ => stepW w) ws

def round512 (st : List ℕ) (kw : ℕ × ℕ) : List ℕ :=
  match st with
  | [a, b, c, d, e, f, g, h] =>
    let t1 := w64 (h + bigSigma1 e + chWord e f g + kw.1 + kw.2)
    let t2 := w64 (bigSigma0 a + majWord a b c)
    [w64 (t1 + t2), a, b, c, w64 (d + t1), e, f, g]
  | _ => st

def compress512 (st : List ℕ) (block : List ℕ) : List ℕ :=
  let st2 := (K512.zip (fullW (blockWords block))).foldl round512 st
  List.zipWith (fun x y => w64 (x + y)) st st2

def sha512Bytes (msg : List ℕ) : List ℕ :=
  let padded := padSha512 msg
  ((toBlocks padded.length padded).foldl compress512 H512init).foldr
    (fun wrd acc => beBytes 8 wrd ++ acc) []

def hexDigitLower (n : ℕ) : Char :=
  if n < 10 then Char.ofNat ('0'.toNat + n) else Char.ofNat ('a'.toNat + n - 10)

def bytesToHex (bs : List ℕ) : String :=
  ⟨bs.foldr (fun b acc => hexDigitLower (b / 16) :: hexDigitLower (b % 16) :: acc) []⟩

def sha512Hex (s : String) : String := bytesToHex (sha512Bytes (strBytes s))

def hmacSha512Bytes (key msg : List ℕ) : List ℕ :=
  let k0 := if 128 < key.length then sha512Bytes key else key
  let kp := k0 ++ List.replicate (128 - k0.length) 0
  sha512Bytes ((kp.map (fun b => b ^^^ 0x5c)) ++
    sha512Bytes ((kp.map (fun b => b ^^^ 0x36)) ++ msg))

def generateSignature (secret method resourcePath queryString bodyString timestamp : String) :
    String :=
  bytesToHex (hmacSha512Bytes (strBytes secret)
    (strBytes (String.intercalate "\n"
      [method, resourcePath, queryString, sha512Hex bodyString, timestamp])))

set_option maxRecDepth 100000

set_option maxHeartbeats 2000000

/-- Claim C3 — confirmed.  `generateSignature` (identical in both drafts of
`gateio.service.js`) hashes the body with SHA-512, joins method, resource
path, query string, body hash and timestamp with literal newlines in that
order, and returns the lowercase-hex HMAC-SHA512 of that canonical string
under the secret.  The embedded SHA-512 and HMAC-SHA512 agree with the
published test vectors (FIPS 180-4 empty-string digest — the spec's
"empty-string hash when the body is empty" — and RFC 4231 test case 1).
Determinism for fixed inputs holds because `generateSignature` is a pure
function of its arguments. -/
theorem C3_signature_algorithm :
    (∀ secret method resourcePath queryString bodyString timestamp : String,
      generateSignature secret method resourcePath queryString bodyString timestamp =
        bytesToHex (hmacSha512Bytes (strBytes secret)
          (strBytes (method ++ "\n" ++ resourcePath ++ "\n" ++ queryString ++ "\n"
            ++ sha512Hex bodyString ++ "\n" ++ timestamp)))) ∧
    sha512Hex "" =
      "cf83e1357eefb8bdf1542850d66d8007d620e4050b5715dc83f4a921d36ce9ce47d0d13c5d85f2b0ff8318d2877eec2f63b931bd47417a81a538327af927da3e" ∧
    bytesToHex (hmacSha512Bytes (List.replicate 20 0x0b) (strBytes "Hi There")) =
      "87aa7cdea5ef619d4ff0b4241a1d6cb02379f4e2ce4ec2787ad0b30545e17cdedaa833b7d6b8a702038b274eaea3f4e4be9d914eeb61f1702e696c203a126854" := by
  refine ⟨fun _ _ _ _ _ _ => rfl, by decide, by decide⟩
